import Mathlib

/-!
Verification development for the HDTN BPSec Policy Engine
(`BpSecPolicyManager` and its collaborators), as exercised by
`src/common/bpsec/test/TestBpSecPolicyManager.cpp` and specified in the
repository's BPSec policy-engine specification.

The C++ implementation of `BpSecPolicyManager` itself is not part of the
source tree given here (only its unit test is), so the engine is modelled
from the specification: every definition whose doc comment begins with
`Modelled from the spec:` is a shallow embedding of the behaviour the
specification prescribes for the missing implementation file, constrained
to agree with the observable behaviour demanded by the unit test.
-/

/-- An `ipn`-scheme endpoint identifier, a pair `(nodeId, serviceId)`,
mirroring the C++ `cbhe_eid_t`. Machine `uint64_t` values are embedded as
`Nat`; the parser enforces the `≤ 2^64 - 1` bound at the boundary. -/
structure cbhe_eid_t where
  nodeId : Nat
  serviceId : Nat
deriving DecidableEq

/-- Modelled from the spec: one axis matcher of an EID pattern, either the
wildcard `*` (matches any value) or an exact `uint64` value. Only these two
forms are admitted. -/
inductive EidMatcher where
  | anyM : EidMatcher
  | exactM : Nat → EidMatcher
deriving DecidableEq

/-- Modelled from the spec: an EID pattern `ipn:(N|*).(S|*)`, one matcher
for the node number and one for the service number. -/
structure EidPattern where
  nodeMatcher : EidMatcher
  serviceMatcher : EidMatcher
deriving DecidableEq

/-- Whether a single axis matcher accepts a concrete `uint64` value. -/
def EidMatcher.matchesVal : EidMatcher → Nat → Bool
  | .anyM, _ => true
  | .exactM v, w => v == w

/-- Whether an EID pattern matches a concrete EID: both axes must match. -/
def EidPattern.matchesEid (p : EidPattern) (e : cbhe_eid_t) : Bool :=
  p.nodeMatcher.matchesVal e.nodeId && p.serviceMatcher.matchesVal e.serviceId

/-- Modelled from the spec: specificity of one matcher — exact values are
more specific than the wildcard. -/
def EidMatcher.rank : EidMatcher → Nat
  | .anyM => 0
  | .exactM _ => 1

/-- Modelled from the spec: per-axis specificity of a pattern, node matcher
weighted before service matcher. Values range over `0..3`
(`*.*` = 0, `*.S` = 1, `N.*` = 2, `N.S` = 3). -/
def EidPattern.rank (p : EidPattern) : Nat :=
  2 * p.nodeMatcher.rank + p.serviceMatcher.rank

theorem EidMatcher.rank_le_one (m : EidMatcher) : m.rank ≤ 1 := by
  cases m <;> simp [EidMatcher.rank]

theorem EidPattern.rank_le_three (p : EidPattern) : p.rank ≤ 3 := by
  have h1 := EidMatcher.rank_le_one p.nodeMatcher
  have h2 := EidMatcher.rank_le_one p.serviceMatcher
  unfold EidPattern.rank
  omega

/-- Parse a nonempty all-decimal-digit character list as a `Nat`. -/
def parseDecimalDigits (cs : List Char) : Option Nat :=
  if !cs.isEmpty && cs.all Char.isDigit then
    some (cs.foldl (fun acc c => acc * 10 + (c.toNat - 48)) 0)
  else
    none

/-- Modelled from the spec: parse one pattern component, either `*` or a
non-negative decimal integer `≤ 2^64 − 1`; any other form fails. -/
def parseMatcherChars (cs : List Char) : Option EidMatcher :=
  if cs = ['*'] then
    some .anyM
  else
    match parseDecimalDigits cs with
    | some v => if v < 2 ^ 64 then some (.exactM v) else none
    | none => none

/-- Split a character list at its first `'.'`, failing when no dot exists. -/
def splitAtFirstDot : List Char → Option (List Char × List Char)
  | [] => none
  | c :: rest =>
    if c = '.' then
      some ([], rest)
    else
      match splitAtFirstDot rest with
      | some (a, b) => some (c :: a, b)
      | none => none

/-- Modelled from the spec: parse an EID pattern string of the exact shape
`ipn:(N|*).(S|*)`. Strings with embedded `**`, a bare `ipn:`, an empty
string, non-decimal components, or any other syntax are rejected. -/
def parseEidPattern (s : String) : Option EidPattern :=
  match s.data with
  | 'i' :: 'p' :: 'n' :: ':' :: rest =>
    match splitAtFirstDot rest with
    | some (a, b) =>
      match parseMatcherChars a, parseMatcherChars b with
      | some mn, some ms => some ⟨mn, ms⟩
      | _, _ => none
    | none => none
  | _ => none

/-- The C++ `BPSEC_ROLE` enumeration: the three policy roles plus the
sentinel `RESERVED_MAX_ROLE_TYPES`, which is not a valid policy role. -/
inductive BPSEC_ROLE where
  | source
  | verifier
  | acceptor
  | reservedMaxRoleTypes
deriving DecidableEq

/-- Modelled from the spec: the security service a policy provides. -/
inductive BPSEC_SECURITY_SERVICE where
  | confidentiality
  | integrity
deriving DecidableEq

/-- Modelled from the spec: the closed set of recognized security failure
event identifiers. -/
inductive SecurityEventId where
  | sopMissingAtVerifier
  | sopMisconfiguredAtVerifier
  | sopMissingAtAcceptor
  | sopMisconfiguredAtAcceptor
  | sopCorruptedAtAcceptor
deriving DecidableEq

/-- Modelled from the spec: the closed set of recognized security failure
event actions. -/
inductive SecurityAction where
  | removeSecurityOperation
  | removeSecurityOperationTargetBlock
  | removeAllSecurityTargetOperations
  | doNotForwardBundle
  | failBundleForwarding
  | requestBundleStorage
  | reportReasonCode
  | overrideSecurityTargetBlockBpcf
  | overrideSopBpcf
deriving DecidableEq

/-- An event set: an ordered association of event ids to action lists. -/
abbrev SecurityEventSet := List (SecurityEventId × List SecurityAction)

/-- Modelled from the spec: a stored security policy. It owns its
`PolicyKey` (the three patterns plus the role) together with the payload
describing the operation (service, target block types, key material handle
and failure event set). The `policyId` is the allocation index inside the
store and plays the part of the C++ object identity (pointer). Key-file
bytes are embedded as an opaque `Nat` handle. -/
structure BpSecPolicy where
  policyId : Nat
  securitySourceEidPattern : EidPattern
  bundleSourceEidPattern : EidPattern
  bundleFinalDestEidPattern : EidPattern
  role : BPSEC_ROLE
  securityService : BPSEC_SECURITY_SERVICE
  securityTargetBlockTypes : List Nat
  confidentialityKey : Nat
  eventSet : SecurityEventSet
deriving DecidableEq

/-- Association-list lookup used by the decision-tree levels. -/
def alookup {κ α : Type} [DecidableEq κ] : List (κ × α) → κ → Option α
  | [], _ => none
  | (k, v) :: rest, q => if k = q then some v else alookup rest q

/-- Association-list update-or-insert used by the decision-tree levels. -/
def aupdate {κ α : Type} [DecidableEq κ] : List (κ × α) → κ → α → List (κ × α)
  | [], k, v => [(k, v)]
  | (k', v') :: rest, k, v =>
    if k' = k then (k, v) :: rest else (k', v') :: aupdate rest k v

/-- Modelled from the spec: one level of the policy store's decision tree,
for one axis of the key. Each of the four per-axis pattern shapes
(`N.S`, `N.*`, `*.S`, `*.*`) keeps its own subtree collection; lookup
descends trying the more specific shapes before the less specific ones. -/
structure AxisLevel (α : Type) where
  exactExact : List ((Nat × Nat) × α)
  exactAny : List (Nat × α)
  anyExact : List (Nat × α)
  anyAny : Option α
deriving DecidableEq

/-- The empty decision-tree level. -/
def AxisLevel.empty {α : Type} : AxisLevel α := ⟨[], [], [], none⟩

/-- The subtree stored at exactly the given axis pattern, if present. -/
def AxisLevel.getSub {α : Type} (l : AxisLevel α) (p : EidPattern) : Option α :=
  match p.nodeMatcher, p.serviceMatcher with
  | .exactM n, .exactM s => alookup l.exactExact (n, s)
  | .exactM n, .anyM => alookup l.exactAny n
  | .anyM, .exactM s => alookup l.anyExact s
  | .anyM, .anyM => l.anyAny

/-- Replace (or create) the subtree stored at the given axis pattern. -/
def AxisLevel.setSub {α : Type} (l : AxisLevel α) (p : EidPattern) (sub : α) : AxisLevel α :=
  match p.nodeMatcher, p.serviceMatcher with
  | .exactM n, .exactM s => { l with exactExact := aupdate l.exactExact (n, s) sub }
  | .exactM n, .anyM => { l with exactAny := aupdate l.exactAny n sub }
  | .anyM, .exactM s => { l with anyExact := aupdate l.anyExact s sub }
  | .anyM, .anyM => { l with anyAny := some sub }

/-- Apply `f` to the subtree at pattern `p`, materializing `dflt` when the
slot is empty. -/
def AxisLevel.updateSub {α : Type} (l : AxisLevel α) (p : EidPattern) (dflt : α) (f : α → α) :
    AxisLevel α :=
  l.setSub p (f ((l.getSub p).getD dflt))

/-- Descend into an optional subtree with continuation `f`. -/
def optFind {α β : Type} (o : Option α) (f : α → Option β) : Option β :=
  match o with
  | some a => f a
  | none => none

/-- Modelled from the spec: the exact-before-wildcard descent at one level
of the decision tree. The four per-axis shapes are tried in decreasing
specificity (`N.S`, then `N.*`, then `*.S`, then `*.*`), falling through to
the next shape whenever the continuation finds nothing. -/
def AxisLevel.findDescend {α β : Type} (l : AxisLevel α) (e : cbhe_eid_t) (f : α → Option β) :
    Option β :=
  match optFind (alookup l.exactExact (e.nodeId, e.serviceId)) f with
  | some b => some b
  | none =>
    match optFind (alookup l.exactAny e.nodeId) f with
    | some b => some b
    | none =>
      match optFind (alookup l.anyExact e.serviceId) f with
      | some b => some b
      | none => optFind l.anyAny f

/-- The terminal of the decision tree: one optional policy per valid role.
Distinct roles are independent. -/
structure RoleSlots where
  sourcePolicy : Option BpSecPolicy
  verifierPolicy : Option BpSecPolicy
  acceptorPolicy : Option BpSecPolicy
deriving DecidableEq

/-- The empty terminal. -/
def RoleSlots.empty : RoleSlots := ⟨none, none, none⟩

/-- The policy stored for a role at a terminal, if any. The reserved
sentinel role stores nothing. -/
def RoleSlots.getRole (rs : RoleSlots) : BPSEC_ROLE → Option BpSecPolicy
  | .source => rs.sourcePolicy
  | .verifier => rs.verifierPolicy
  | .acceptor => rs.acceptorPolicy
  | .reservedMaxRoleTypes => none

/-- Store a policy for a role at a terminal. The reserved sentinel role is
not a storage slot and leaves the terminal unchanged. -/
def RoleSlots.setRole (rs : RoleSlots) (r : BPSEC_ROLE) (pol : BpSecPolicy) : RoleSlots :=
  match r with
  | .source => { rs with sourcePolicy := some pol }
  | .verifier => { rs with verifierPolicy := some pol }
  | .acceptor => { rs with acceptorPolicy := some pol }
  | .reservedMaxRoleTypes => rs

/-- The three-axis decision tree over `(security source, bundle source,
bundle final destination)` with role terminals. -/
abbrev BdLevel := AxisLevel RoleSlots
abbrev BsLevel := AxisLevel BdLevel
abbrev SsLevel := AxisLevel BsLevel

/-- A full policy key: the three axis patterns plus the role. Two keys are
equal iff all four components are equal. -/
structure PolicyKeyQuad where
  ssPat : EidPattern
  bsPat : EidPattern
  bdPat : EidPattern
  role : BPSEC_ROLE
deriving DecidableEq

/-- Modelled from the spec: lexicographic specificity of a key across the
axes `(security source, bundle source, bundle destination)` in that
priority order; each axis contributes its per-axis rank. -/
def PolicyKeyQuad.specRank (k : PolicyKeyQuad) : Nat :=
  16 * k.ssPat.rank + 4 * k.bsPat.rank + k.bdPat.rank

/-- Whether a key's three patterns match the three concrete EIDs of a
query. -/
def PolicyKeyQuad.matchesQuery (k : PolicyKeyQuad) (ss bs bd : cbhe_eid_t) : Bool :=
  k.ssPat.matchesEid ss && k.bsPat.matchesEid bs && k.bdPat.matchesEid bd

/-- The policy stored at exactly the given key path of the tree, if any. -/
def treeGetAtKey (t : SsLevel) (k : PolicyKeyQuad) : Option BpSecPolicy :=
  optFind (t.getSub k.ssPat) fun l2 =>
    optFind (l2.getSub k.bsPat) fun l3 =>
      optFind (l3.getSub k.bdPat) fun rs => rs.getRole k.role

/-- Insert a policy at exactly the given key path of the tree, creating the
intermediate levels as needed. -/
def treeInsertAtKey (t : SsLevel) (k : PolicyKeyQuad) (pol : BpSecPolicy) : SsLevel :=
  t.updateSub k.ssPat AxisLevel.empty fun l2 =>
    l2.updateSub k.bsPat AxisLevel.empty fun l3 =>
      l3.updateSub k.bdPat RoleSlots.empty fun rs => rs.setRole k.role pol

/-- Modelled from the spec: the policy store. Policies are deduplicated by
key and receive stable allocation indices; `defaultEventSet` is the
bundle-wide default event set used when no policy matches a received
security block. -/
structure BpSecPolicyManager where
  policyTree : SsLevel
  nextPolicyId : Nat
  defaultEventSet : Option SecurityEventSet
deriving DecidableEq

/-- A freshly constructed, empty policy manager. -/
def BpSecPolicyManager.empty : BpSecPolicyManager :=
  { policyTree := AxisLevel.empty, nextPolicyId := 0, defaultEventSet := none }

/-- Modelled from the spec: `find(ss, bs, bd, role)` — the
exact-before-wildcard descent through the three axis levels, returning the
policy stored for the requested role at the first reachable terminal, or
`none`. -/
def BpSecPolicyManager.FindPolicy (m : BpSecPolicyManager) (ss bs bd : cbhe_eid_t)
    (role : BPSEC_ROLE) : Option BpSecPolicy :=
  m.policyTree.findDescend ss fun l2 =>
    l2.findDescend bs fun l3 =>
      l3.findDescend bd fun rs => rs.getRole role

/-- The fields a freshly created policy carries before the configuration
loader populates it: the key it was stored under plus defaulted payload. -/
def mkDefaultPolicy (pid : Nat) (k : PolicyKeyQuad) : BpSecPolicy :=
  { policyId := pid
    securitySourceEidPattern := k.ssPat
    bundleSourceEidPattern := k.bsPat
    bundleFinalDestEidPattern := k.bdPat
    role := k.role
    securityService := .confidentiality
    securityTargetBlockTypes := []
    confidentialityKey := 0
    eventSet := [] }

/-- Modelled from the spec: `create_or_get(sp, bsp, bdp, role)`. Parses the
three pattern strings; if any parse fails or the role is not one of
Source/Verifier/Acceptor, returns `none` without mutating the store.
Otherwise inserts a fresh policy at the key when missing (returning it with
`isNew = true`) or returns the existing stored policy with
`isNew = false`. -/
def BpSecPolicyManager.CreateOrGetNewPolicy (m : BpSecPolicyManager)
    (ssStr bsStr bdStr : String) (role : BPSEC_ROLE) :
    Option (BpSecPolicy × Bool) × BpSecPolicyManager :=
  match parseEidPattern ssStr, parseEidPattern bsStr, parseEidPattern bdStr with
  | some p1, some p2, some p3 =>
    if role = .reservedMaxRoleTypes then
      (none, m)
    else
      let k : PolicyKeyQuad := ⟨p1, p2, p3, role⟩
      match treeGetAtKey m.policyTree k with
      | some pol => (some (pol, false), m)
      | none =>
        let pol := mkDefaultPolicy m.nextPolicyId k
        (some (pol, true),
          { m with
            policyTree := treeInsertAtKey m.policyTree k pol
            nextPolicyId := m.nextPolicyId + 1 })
  | _, _, _ => (none, m)

/-- Modelled from the spec: the single-slot policy search cache owned by
one processing context. It remembers the last query tuple and its result
(also when that result was *absent*), and reports through `wasCacheHit`
whether the most recent query hit. -/
structure PolicySearchCache where
  lastQuery : Option (cbhe_eid_t × cbhe_eid_t × cbhe_eid_t × BPSEC_ROLE)
  lastResult : Option BpSecPolicy
  wasCacheHit : Bool

/-- A freshly constructed cache: no remembered query. -/
def PolicySearchCache.fresh : PolicySearchCache :=
  { lastQuery := none, lastResult := none, wasCacheHit := false }

/-- Modelled from the spec: `find_with_cache`. When the remembered tuple
equals the query, the memoized result is returned with `wasCacheHit=true`;
otherwise the store is consulted and the slot overwritten with
`wasCacheHit=false`. Negative results are cached like positive ones. -/
def BpSecPolicyManager.FindPolicyWithCacheSupport (m : BpSecPolicyManager)
    (ss bs bd : cbhe_eid_t) (role : BPSEC_ROLE) (cache : PolicySearchCache) :
    Option BpSecPolicy × PolicySearchCache :=
  if cache.lastQuery = some (ss, bs, bd, role) then
    (cache.lastResult, { cache with wasCacheHit := true })
  else
    let res := m.FindPolicy ss bs bd role
    (res, { lastQuery := some (ss, bs, bd, role), lastResult := res, wasCacheHit := false })

/-- All subtrees of a level together with the axis pattern under which each
is stored. -/
def AxisLevel.subsWithPattern {α : Type} (l : AxisLevel α) : List (EidPattern × α) :=
  l.exactExact.map (fun x => (⟨.exactM x.1.1, .exactM x.1.2⟩, x.2)) ++
    l.exactAny.map (fun x => (⟨.exactM x.1, .anyM⟩, x.2)) ++
      l.anyExact.map (fun x => (⟨.anyM, .exactM x.1⟩, x.2)) ++
        (match l.anyAny with
          | some a => [(⟨EidMatcher.anyM, EidMatcher.anyM⟩, a)]
          | none => [])

/-- The policies of a terminal together with their roles. -/
def RoleSlots.entries (rs : RoleSlots) : List (BPSEC_ROLE × BpSecPolicy) :=
  (match rs.sourcePolicy with
    | some p => [(BPSEC_ROLE.source, p)]
    | none => []) ++
    (match rs.verifierPolicy with
      | some p => [(BPSEC_ROLE.verifier, p)]
      | none => []) ++
      (match rs.acceptorPolicy with
        | some p => [(BPSEC_ROLE.acceptor, p)]
        | none => [])

/-- Every stored policy of a manager, listed with the key path under which
it is stored. -/
def managerEntries (m : BpSecPolicyManager) : List (PolicyKeyQuad × BpSecPolicy) :=
  m.policyTree.subsWithPattern.flatMap fun x1 =>
    x1.2.subsWithPattern.flatMap fun x2 =>
      x2.2.subsWithPattern.flatMap fun x3 =>
        x3.2.entries.map fun rp => (⟨x1.1, x2.1, x3.1, rp.1⟩, rp.2)

/-- Decidable well-formedness of a store: every stored policy records, in
its own fields, exactly the key path it is stored under. Stores populated
through `CreateOrGetNewPolicy` have this shape by construction. -/
def managerWellFormed (m : BpSecPolicyManager) : Bool :=
  (managerEntries m).all fun e =>
    decide (e.2.securitySourceEidPattern = e.1.ssPat ∧
      e.2.bundleSourceEidPattern = e.1.bsPat ∧
        e.2.bundleFinalDestEidPattern = e.1.bdPat ∧ e.2.role = e.1.role)

/-- Injective encoding of a byte list into one `Nat`, used to build the
symbolic authentication tag of the modelled AEAD primitive. -/
def encodeByteList : List Nat → Nat
  | [] => 0
  | b :: rest => Nat.pair b (encodeByteList rest) + 1

/-- Modelled from the spec: the `seal` operation of the abstracted
`SecurityContext` AEAD capability. The model is a symbolic cipher: the
plaintext bytes are shifted by `key + 1`, and an authentication tag binding
the key to the plaintext is kept adjacent to the ciphertext (the wire
format keeps it in the ASB's security results; the model folds it into the
replaced block data). -/
def aeadSeal (key : Nat) (pt : List Nat) : List Nat :=
  (Nat.pair key (encodeByteList pt) + 1) :: pt.map (fun b => b + (key + 1))

/-- Modelled from the spec: the `open` operation of the abstracted
`SecurityContext` AEAD capability. Decryption succeeds exactly when the
authentication tag was produced under the same key for the recovered
plaintext; otherwise it reports an integrity failure (`none`). -/
def aeadOpen (key : Nat) (ct : List Nat) : Option (List Nat) :=
  match ct with
  | [] => none
  | tag :: rest =>
    let pt := rest.map (fun b => b - (key + 1))
    if Nat.pair key (encodeByteList pt) + 1 = tag then some pt else none

/-- A BPv7 canonical block as the policy engine observes it: type code,
block number, data bytes and the per-block `isEncrypted` indicator of its
`BundleViewV7` wrapper. -/
structure CanonicalBlock where
  blockTypeCode : Nat
  blockNumber : Nat
  blockData : List Nat
  isEncrypted : Bool
deriving DecidableEq

/-- The BPv7 payload block type code. -/
def payloadBlockType : Nat := 1

/-- Modelled from the spec: the Abstract Security Block content of one
Block Confidentiality Block — the security source EID and the list of
target block numbers (per-target results live with the target data in this
model, see `aeadSeal`). -/
structure BcbBlock where
  securitySource : cbhe_eid_t
  securityTargets : List Nat
deriving DecidableEq

/-- A loaded bundle as the policy engine observes it: the primary block's
source and destination EIDs, the canonical blocks, and the attached BCB
security blocks. -/
structure BundleViewModel where
  sourceNodeId : cbhe_eid_t
  destinationEid : cbhe_eid_t
  canonicalBlocks : List CanonicalBlock
  bcbBlocks : List BcbBlock
deriving DecidableEq

/-- The canonical blocks of a given type, in bundle order — the model of
`BundleViewV7::GetCanonicalBlocksByType`. -/
def GetCanonicalBlocksByType (bv : BundleViewModel) (t : Nat) : List CanonicalBlock :=
  bv.canonicalBlocks.filter fun b => b.blockTypeCode == t

/-- Modelled from the spec: re-serializing and reloading a bundle. The
abstract block contents survive the round trip; the per-block
`isEncrypted` indicator is recomputed by the loader from the BCB target
lists, exactly as `BundleViewV7` derives it from the security blocks
present in the received bytes. -/
def CopyAndLoadBundle (bv : BundleViewModel) : BundleViewModel :=
  { bv with
    canonicalBlocks := bv.canonicalBlocks.map fun b =>
      { b with
        isEncrypted := bv.bcbBlocks.any fun c => c.securityTargets.contains b.blockNumber } }

/-- Encrypt one canonical block under a source-role confidentiality policy
when its type is targeted; non-targeted blocks pass through unchanged. -/
def encryptBlockIfTargeted (key : Nat) (targetTypes : List Nat) (b : CanonicalBlock) :
    CanonicalBlock :=
  if targetTypes.contains b.blockTypeCode then
    { b with blockData := aeadSeal key b.blockData, isEncrypted := true }
  else
    b

/-- Modelled from the spec: `process_outgoing`. Finds the Source-role
policy matching `(localSecuritySourceEid, bundle source, bundle
destination)`; for a confidentiality policy whose target block types are
present, encrypts the targeted blocks in place and attaches one BCB listing
the targeted block numbers under the local security source. Bundles with no
matching policy, no targeted block, or an integrity-service policy (the
BIB path, outside the claims under verification) pass through unchanged. -/
def BpSecPolicyManager.FindPolicyAndProcessOutgoingBundle (m : BpSecPolicyManager)
    (bv : BundleViewModel) (thisSecuritySourceEid : cbhe_eid_t) : Option BundleViewModel :=
  match m.FindPolicy thisSecuritySourceEid bv.sourceNodeId bv.destinationEid .source with
  | none => some bv
  | some pol =>
    match pol.securityService with
    | .integrity => some bv
    | .confidentiality =>
      let targeted := bv.canonicalBlocks.filter fun b =>
        pol.securityTargetBlockTypes.contains b.blockTypeCode
      if targeted.isEmpty then
        some bv
      else
        some
          { bv with
            canonicalBlocks := bv.canonicalBlocks.map
              (encryptBlockIfTargeted pol.confidentialityKey pol.securityTargetBlockTypes)
            bcbBlocks := bv.bcbBlocks ++
              [{ securitySource := thisSecuritySourceEid
                 securityTargets := targeted.map (fun b => b.blockNumber) }] }

/-- The mutable state threaded through `ProcessReceivedBundle`: the
canonical blocks, the security blocks that remain attached, the trace of
triggered events and fired actions, and the bundle-wide outcome flags. -/
structure RxProcessState where
  blocks : List CanonicalBlock
  keptBcbs : List BcbBlock
  firedEvents : List SecurityEventId
  firedActions : List SecurityAction
  doNotForward : Bool
  storageRequested : Bool
  dropBundle : Bool
deriving DecidableEq

/-- Modelled from the spec: the effect of one failure-event action, applied
in declared order. The Boolean component of the accumulator records whether
the affected security operation (the current BCB) has been removed. The
two `override…Bpcf` actions replace processing-control flags that this
model does not carry; they are recorded in the fired-action trace only. -/
def applySecurityAction (bcb : BcbBlock) (acc : RxProcessState × Bool) (a : SecurityAction) :
    RxProcessState × Bool :=
  let st := { acc.1 with firedActions := acc.1.firedActions ++ [a] }
  let removed := acc.2
  match a with
  | .removeSecurityOperation => (st, true)
  | .removeSecurityOperationTargetBlock =>
    ({ st with blocks := st.blocks.filter fun b => !(bcb.securityTargets.contains b.blockNumber) },
      true)
  | .removeAllSecurityTargetOperations =>
    ({ st with
      keptBcbs := (st.keptBcbs.map fun c =>
          { c with
            securityTargets := c.securityTargets.filter fun n =>
              !(bcb.securityTargets.contains n) }).filter
        fun c => !c.securityTargets.isEmpty }, true)
  | .doNotForwardBundle => ({ st with doNotForward := true }, removed)
  | .failBundleForwarding => ({ st with dropBundle := true }, removed)
  | .requestBundleStorage => ({ st with storageRequested := true }, removed)
  | .reportReasonCode => (st, removed)
  | .overrideSecurityTargetBlockBpcf => (st, removed)
  | .overrideSopBpcf => (st, removed)

/-- Modelled from the spec: trigger one failure event — record it and apply
the actions its event set declares for it, in list order. -/
def triggerSecurityEvent (bcb : BcbBlock) (ev : SecurityEventId) (es : SecurityEventSet)
    (st : RxProcessState) (removed : Bool) : RxProcessState × Bool :=
  ((alookup es ev).getD []).foldl (applySecurityAction bcb)
    ({ st with firedEvents := st.firedEvents ++ [ev] }, removed)

/-- Decrypt one canonical block named by the BCB's target list, clearing
its `isEncrypted` indicator; blocks the BCB does not target, and blocks
whose data fails to open, pass through unchanged. -/
def decryptBlockIfTargeted (key : Nat) (targets : List Nat) (b : CanonicalBlock) :
    CanonicalBlock :=
  if targets.contains b.blockNumber then
    match aeadOpen key b.blockData with
    | some pt => { b with blockData := pt, isEncrypted := false }
    | none => b
  else
    b

/-- Whether every target of a BCB names a present block and every block the
BCB targets decrypts under the given key. -/
def bcbFullyDecryptable (key : Nat) (blocks : List CanonicalBlock) (targets : List Nat) : Bool :=
  (targets.all fun n => blocks.any fun b => b.blockNumber == n) &&
    blocks.all fun b => !(targets.contains b.blockNumber) || (aeadOpen key b.blockData).isSome

/-- Append the current BCB to the kept list unless an action removed it. -/
def keepBcbUnlessRemoved (bcb : BcbBlock) (acc : RxProcessState × Bool) : RxProcessState :=
  if acc.2 then acc.1 else { acc.1 with keptBcbs := acc.1.keptBcbs ++ [bcb] }

/-- Modelled from the spec: processing of one received BCB. A policy is
located for role Acceptor (preferred) else Verifier under
`(asb security source, bundle source, bundle destination)`; an acceptor
decrypts every target in place, clears the targets' `isEncrypted`
indicators and removes the BCB; a verifier verifies and leaves the bundle
intact; a missing policy triggers `sopMissingAtAcceptor` against the
bundle-wide default event set (when one is loaded) and a policy whose
service cannot process a BCB triggers `sopMisconfiguredAtAcceptor`.
A failed acceptor decrypt triggers `sopCorruptedAtAcceptor` and drops the
bundle: the repository's unit test requires the bad-key bundle to be
dropped ("bundle must be dropped (payload cannot be decrypted)") even when
the triggered event's action list does not contain
`failBundleForwarding`. -/
def processOneBcb (m : BpSecPolicyManager) (bundleSrc bundleDst : cbhe_eid_t)
    (st : RxProcessState) (bcb : BcbBlock) : RxProcessState :=
  match m.FindPolicy bcb.securitySource bundleSrc bundleDst .acceptor with
  | some pol =>
    match pol.securityService with
    | .confidentiality =>
      if bcbFullyDecryptable pol.confidentialityKey st.blocks bcb.securityTargets then
        { st with
          blocks := st.blocks.map
            (decryptBlockIfTargeted pol.confidentialityKey bcb.securityTargets) }
      else
        let acc := triggerSecurityEvent bcb .sopCorruptedAtAcceptor pol.eventSet st false
        keepBcbUnlessRemoved bcb ({ acc.1 with dropBundle := true }, acc.2)
    | .integrity =>
      keepBcbUnlessRemoved bcb
        (triggerSecurityEvent bcb .sopMisconfiguredAtAcceptor pol.eventSet st false)
  | none =>
    match m.FindPolicy bcb.securitySource bundleSrc bundleDst .verifier with
    | some _ => { st with keptBcbs := st.keptBcbs ++ [bcb] }
    | none =>
      match m.defaultEventSet with
      | some es =>
        keepBcbUnlessRemoved bcb (triggerSecurityEvent bcb .sopMissingAtAcceptor es st false)
      | none =>
        { st with
          firedEvents := st.firedEvents ++ [.sopMissingAtAcceptor]
          keptBcbs := st.keptBcbs ++ [bcb] }

/-- The outcome of `process_incoming`: the mutated bundle, the trace of
triggered events and fired actions, and the bundle-wide flags. The C++
routine's Boolean return value corresponds to `accepted`. -/
structure ReceivedBundleResult where
  bundle : BundleViewModel
  firedEvents : List SecurityEventId
  firedActions : List SecurityAction
  doNotForward : Bool
  storageRequested : Bool
  dropBundle : Bool
deriving DecidableEq

/-- The `Accept` outcome holds whenever the bundle was not dropped. -/
def ReceivedBundleResult.accepted (r : ReceivedBundleResult) : Bool := !r.dropBundle

/-- Modelled from the spec: `process_incoming` / `ProcessReceivedBundle`.
Every received BCB is processed in order through `processOneBcb`; the
result carries the mutated bundle together with the event/action trace and
the bundle-wide outcome. -/
def BpSecPolicyManager.ProcessReceivedBundle (m : BpSecPolicyManager) (bv : BundleViewModel) :
    ReceivedBundleResult :=
  let st0 : RxProcessState :=
    { blocks := bv.canonicalBlocks, keptBcbs := [], firedEvents := [], firedActions := []
      doNotForward := false, storageRequested := false, dropBundle := false }
  let fin := bv.bcbBlocks.foldl (processOneBcb m bv.sourceNodeId bv.destinationEid) st0
  { bundle := { bv with canonicalBlocks := fin.blocks, bcbBlocks := fin.keptBcbs }
    firedEvents := fin.firedEvents
    firedActions := fin.firedActions
    doNotForward := fin.doNotForward
    storageRequested := fin.storageRequested
    dropBundle := fin.dropBundle }

/-! ### Basic lemmas about the embedding's building blocks -/

theorem optFind_eq_some {α β : Type} (o : Option α) (f : α → Option β) (b : β) :
    optFind o f = some b ↔ ∃ a, o = some a ∧ f a = some b := by
  cases o <;> simp [optFind]

theorem alookup_mem {κ α : Type} [DecidableEq κ] (l : List (κ × α)) (q : κ) (v : α)
    (h : alookup l q = some v) : (q, v) ∈ l := by
  induction l with
  | nil => simp [alookup] at h
  | cons kv rest ih =>
    obtain ⟨k, v'⟩ := kv
    by_cases hk : k = q
    · subst hk
      simp [alookup] at h
      simp [h]
    · simp [alookup, hk] at h
      exact List.mem_cons_of_mem _ (ih h)

theorem alookup_aupdate {κ α : Type} [DecidableEq κ] (l : List (κ × α)) (k q : κ) (v : α) :
    alookup (aupdate l k v) q = if q = k then some v else alookup l q := by
  induction l with
  | nil => by_cases h : q = k <;> simp [alookup, aupdate, h, Ne.symm]
  | cons kv rest ih =>
    obtain ⟨k', v'⟩ := kv
    by_cases hk : k' = k
    · subst hk
      by_cases hq : q = k' <;> simp [alookup, aupdate, hq, Ne.symm]
    · by_cases hq : q = k'
      · have hqk : ¬q = k := by rw [hq]; exact hk
        simp [alookup, aupdate, hk, hq, hqk]
      · simp [alookup, aupdate, hk, hq, Ne.symm, ih]

theorem aeadOpen_aeadSeal_same (key : Nat) (pt : List Nat) :
    aeadOpen key (aeadSeal key pt) = some pt := by
  simp [aeadOpen, aeadSeal, List.map_map, Function.comp_def]

theorem aeadOpen_aeadSeal_wrong (key key' : Nat) (pt : List Nat) (hne : key' ≠ key) :
    aeadOpen key' (aeadSeal key pt) = none := by
  simp only [aeadOpen, aeadSeal]
  rw [if_neg]
  intro h
  have h2 : Nat.pair key' (encodeByteList ((pt.map fun b => b + (key + 1)).map
      fun b => b - (key' + 1))) = Nat.pair key (encodeByteList pt) := by omega
  exact hne (Nat.pair_eq_pair.mp h2).1

theorem aeadSeal_ne (key : Nat) (pt : List Nat) : aeadSeal key pt ≠ pt := by
  intro h
  have := congrArg List.length h
  simp [aeadSeal] at this

theorem AxisLevel.getSub_empty {α : Type} (p : EidPattern) :
    (AxisLevel.empty : AxisLevel α).getSub p = none := by
  obtain ⟨pn, ps⟩ := p
  cases pn <;> cases ps <;> simp [AxisLevel.getSub, AxisLevel.empty, alookup]

theorem AxisLevel.getSub_setSub {α : Type} (l : AxisLevel α) (p p' : EidPattern) (sub : α) :
    (l.setSub p sub).getSub p' = if p' = p then some sub else l.getSub p' := by
  obtain ⟨pn, ps⟩ := p
  obtain ⟨pn', ps'⟩ := p'
  cases pn <;> cases ps <;> cases pn' <;> cases ps' <;>
    simp [AxisLevel.getSub, AxisLevel.setSub, alookup_aupdate, EidPattern.mk.injEq,
      Prod.ext_iff, and_comm]

theorem AxisLevel.getSub_updateSub {α : Type} (l : AxisLevel α) (p p' : EidPattern) (dflt : α)
    (f : α → α) :
    (l.updateSub p dflt f).getSub p' =
      if p' = p then some (f ((l.getSub p).getD dflt)) else l.getSub p' := by
  unfold AxisLevel.updateSub
  rw [AxisLevel.getSub_setSub]

theorem RoleSlots.getRole_empty (r : BPSEC_ROLE) : RoleSlots.empty.getRole r = none := by
  cases r <;> rfl

theorem RoleSlots.getRole_setRole (rs : RoleSlots) (r r' : BPSEC_ROLE) (pol : BpSecPolicy)
    (hr : r ≠ .reservedMaxRoleTypes) :
    (rs.setRole r pol).getRole r' = if r' = r then some pol else rs.getRole r' := by
  cases r <;> cases r' <;> simp_all [RoleSlots.setRole, RoleSlots.getRole]

theorem treeGetAtKey_treeInsertAtKey (t : SsLevel) (k k' : PolicyKeyQuad) (pol : BpSecPolicy)
    (hr : k'.role ≠ .reservedMaxRoleTypes) :
    treeGetAtKey (treeInsertAtKey t k' pol) k =
      if k = k' then some pol else treeGetAtKey t k := by
  obtain ⟨p1, p2, p3, r⟩ := k
  obtain ⟨p1', p2', p3', r'⟩ := k'
  simp only [treeGetAtKey, treeInsertAtKey]
  rw [AxisLevel.getSub_updateSub]
  by_cases h1 : p1 = p1'
  · subst h1
    rw [if_pos rfl]
    simp only [optFind]
    rw [AxisLevel.getSub_updateSub]
    by_cases h2 : p2 = p2'
    · subst h2
      rw [if_pos rfl]
      simp only [optFind]
      rw [AxisLevel.getSub_updateSub]
      by_cases h3 : p3 = p3'
      · subst h3
        rw [if_pos rfl]
        simp only [optFind]
        rw [RoleSlots.getRole_setRole _ _ _ _ hr]
        by_cases h4 : r = r'
        · subst h4
          rw [if_pos rfl, if_pos rfl]
        · rw [if_neg h4, if_neg (by simp [PolicyKeyQuad.mk.injEq, h4])]
          cases hg1 : t.getSub p1
          · simp only [optFind, Option.getD, AxisLevel.getSub_empty, RoleSlots.getRole_empty]
          · simp only [optFind, Option.getD]
            cases hg2 : (t.getSub p1).getD AxisLevel.empty |>.getSub p2
            · rw [hg1] at hg2
              simp only [Option.getD] at hg2
              simp only [hg2, optFind, AxisLevel.getSub_empty, RoleSlots.getRole_empty]
            · rw [hg1] at hg2
              simp only [Option.getD] at hg2
              simp only [hg2, optFind, Option.getD]
              cases hg3 : ((t.getSub p1).getD AxisLevel.empty |>.getSub p2).getD
                  AxisLevel.empty |>.getSub p3
              · rw [hg1] at hg3
                simp only [Option.getD, hg2] at hg3
                simp only [hg3, optFind, RoleSlots.getRole_empty]
              · rw [hg1] at hg3
                simp only [Option.getD, hg2] at hg3
                simp only [hg3, optFind]
      · rw [if_neg h3, if_neg (by simp [PolicyKeyQuad.mk.injEq, h3])]
        cases hg1 : t.getSub p1
        · simp only [optFind, Option.getD, AxisLevel.getSub_empty]
        · simp only [optFind, Option.getD]
          cases hg2 : AxisLevel.getSub _ p2
          · simp only [hg2, optFind, Option.getD, AxisLevel.getSub_empty]
          · simp only [hg2, optFind, Option.getD]
    · rw [if_neg h2, if_neg (by simp [PolicyKeyQuad.mk.injEq, h2])]
      cases hg1 : t.getSub p1
      · simp only [optFind, Option.getD, AxisLevel.getSub_empty]
      · simp only [optFind, Option.getD]
  · rw [if_neg h1, if_neg (by simp [PolicyKeyQuad.mk.injEq, h1])]

theorem AxisLevel.getSub_mem_subsWithPattern {α : Type} (l : AxisLevel α) (p : EidPattern)
    (a : α) (h : l.getSub p = some a) : (p, a) ∈ l.subsWithPattern := by
  obtain ⟨pn, ps⟩ := p
  unfold AxisLevel.subsWithPattern
  cases pn <;> cases ps <;> simp only [AxisLevel.getSub] at h <;>
    simp only [List.mem_append, List.mem_map]
  · exact Or.inr (by simp [h])
  · exact Or.inl (Or.inr ⟨_, alookup_mem _ _ _ h, rfl⟩)
  · exact Or.inl (Or.inl (Or.inr ⟨_, alookup_mem _ _ _ h, rfl⟩))
  · exact Or.inl (Or.inl (Or.inl ⟨_, alookup_mem _ _ _ h, rfl⟩))

theorem RoleSlots.getRole_mem_entries (rs : RoleSlots) (r : BPSEC_ROLE) (pol : BpSecPolicy)
    (h : rs.getRole r = some pol) : (r, pol) ∈ rs.entries := by
  cases r <;> simp_all [RoleSlots.getRole, RoleSlots.entries]

theorem mem_managerEntries_of_chain (m : BpSecPolicyManager) (p1 p2 p3 : EidPattern)
    (r : BPSEC_ROLE) (pol : BpSecPolicy) (l2 : BsLevel) (l3 : BdLevel) (rs : RoleSlots)
    (h1 : m.policyTree.getSub p1 = some l2) (h2 : l2.getSub p2 = some l3)
    (h3 : l3.getSub p3 = some rs) (h4 : rs.getRole r = some pol) :
    (⟨p1, p2, p3, r⟩, pol) ∈ managerEntries m := by
  unfold managerEntries
  rw [List.mem_flatMap]
  refine ⟨(p1, l2), AxisLevel.getSub_mem_subsWithPattern _ _ _ h1, ?_⟩
  rw [List.mem_flatMap]
  refine ⟨(p2, l3), AxisLevel.getSub_mem_subsWithPattern _ _ _ h2, ?_⟩
  rw [List.mem_flatMap]
  refine ⟨(p3, rs), AxisLevel.getSub_mem_subsWithPattern _ _ _ h3, ?_⟩
  rw [List.mem_map]
  exact ⟨(r, pol), RoleSlots.getRole_mem_entries _ _ _ h4, rfl⟩

theorem mem_managerEntries_of_treeGetAtKey (m : BpSecPolicyManager) (k : PolicyKeyQuad)
    (pol : BpSecPolicy) (h : treeGetAtKey m.policyTree k = some pol) :
    (k, pol) ∈ managerEntries m := by
  obtain ⟨p1, p2, p3, r⟩ := k
  unfold treeGetAtKey at h
  rw [optFind_eq_some] at h
  obtain ⟨l2, h1, h⟩ := h
  rw [optFind_eq_some] at h
  obtain ⟨l3, h2, h⟩ := h
  rw [optFind_eq_some] at h
  obtain ⟨rs, h3, h4⟩ := h
  exact mem_managerEntries_of_chain m p1 p2 p3 r pol l2 l3 rs h1 h2 h3 h4

theorem managerWellFormed_spec (m : BpSecPolicyManager) (hwf : managerWellFormed m = true)
    (k : PolicyKeyQuad) (pol : BpSecPolicy) (h : (k, pol) ∈ managerEntries m) :
    pol.securitySourceEidPattern = k.ssPat ∧ pol.bundleSourceEidPattern = k.bsPat ∧
      pol.bundleFinalDestEidPattern = k.bdPat ∧ pol.role = k.role := by
  unfold managerWellFormed at hwf
  rw [List.all_eq_true] at hwf
  exact of_decide_eq_true (hwf (k, pol) h)

theorem EidPattern.matchesEid_exact_exact (n s : Nat) (e : cbhe_eid_t) :
    EidPattern.matchesEid ⟨.exactM n, .exactM s⟩ e = true ↔ n = e.nodeId ∧ s = e.serviceId := by
  simp [EidPattern.matchesEid, EidMatcher.matchesVal]

theorem EidPattern.matchesEid_exact_any (n : Nat) (e : cbhe_eid_t) :
    EidPattern.matchesEid ⟨.exactM n, .anyM⟩ e = true ↔ n = e.nodeId := by
  simp [EidPattern.matchesEid, EidMatcher.matchesVal]

theorem EidPattern.matchesEid_any_exact (s : Nat) (e : cbhe_eid_t) :
    EidPattern.matchesEid ⟨.anyM, .exactM s⟩ e = true ↔ s = e.serviceId := by
  simp [EidPattern.matchesEid, EidMatcher.matchesVal]

theorem EidPattern.matchesEid_any_any (e : cbhe_eid_t) :
    EidPattern.matchesEid ⟨.anyM, .anyM⟩ e = true := by
  simp [EidPattern.matchesEid, EidMatcher.matchesVal]

/-- Soundness of the per-level descent: a found result comes from a stored
subtree whose axis pattern matches the queried EID. -/
theorem AxisLevel.findDescend_eq_exists {α β : Type} (l : AxisLevel α) (e : cbhe_eid_t)
    (f : α → Option β) (b : β) (h : l.findDescend e f = some b) :
    ∃ p sub, l.getSub p = some sub ∧ p.matchesEid e = true ∧ f sub = some b := by
  unfold AxisLevel.findDescend at h
  cases h1 : optFind (alookup l.exactExact (e.nodeId, e.serviceId)) f with
  | some b1 =>
    rw [h1] at h
    obtain ⟨sub, hsub, hf⟩ := (optFind_eq_some _ _ _).mp h1
    refine ⟨⟨.exactM e.nodeId, .exactM e.serviceId⟩, sub, ?_, ?_, ?_⟩
    · simpa [AxisLevel.getSub] using hsub
    · simp [EidPattern.matchesEid_exact_exact]
    · simpa using hf.trans (congrArg some (by injection h))
  | none =>
    rw [h1] at h
    cases h2 : optFind (alookup l.exactAny e.nodeId) f with
    | some b2 =>
      rw [h2] at h
      obtain ⟨sub, hsub, hf⟩ := (optFind_eq_some _ _ _).mp h2
      refine ⟨⟨.exactM e.nodeId, .anyM⟩, sub, ?_, ?_, ?_⟩
      · simpa [AxisLevel.getSub] using hsub
      · simp [EidPattern.matchesEid_exact_any]
      · simpa using hf.trans (congrArg some (by injection h))
    | none =>
      rw [h2] at h
      cases h3 : optFind (alookup l.anyExact e.serviceId) f with
      | some b3 =>
        rw [h3] at h
        obtain ⟨sub, hsub, hf⟩ := (optFind_eq_some _ _ _).mp h3
        refine ⟨⟨.anyM, .exactM e.serviceId⟩, sub, ?_, ?_, ?_⟩
        · simpa [AxisLevel.getSub] using hsub
        · simp [EidPattern.matchesEid_any_exact]
        · simpa using hf.trans (congrArg some (by injection h))
      | none =>
        rw [h3] at h
        obtain ⟨sub, hsub, hf⟩ := (optFind_eq_some _ _ _).mp h
        exact ⟨⟨.anyM, .anyM⟩, sub, by simpa [AxisLevel.getSub] using hsub,
          EidPattern.matchesEid_any_any e, hf⟩

/-- The per-level descent returns the continuation's result from the most
specific matching subtree: when every strictly more specific matching slot
yields nothing, the result comes from the given slot. -/
theorem AxisLevel.findDescend_eq_of_top {α β : Type} (l : AxisLevel α) (e : cbhe_eid_t)
    (f : α → Option β) (p : EidPattern) (sub : α) (b : β)
    (hget : l.getSub p = some sub) (hmatch : p.matchesEid e = true) (hf : f sub = some b)
    (hmax : ∀ p' sub', l.getSub p' = some sub' → p'.matchesEid e = true →
      p.rank < p'.rank → f sub' = none) :
    l.findDescend e f = some b := by
  have hee : ∀ sub', alookup l.exactExact (e.nodeId, e.serviceId) = some sub' →
      p.rank < 3 → f sub' = none := by
    intro sub' hsub' hrk
    exact hmax ⟨.exactM e.nodeId, .exactM e.serviceId⟩ sub' (by simpa [AxisLevel.getSub])
      (by simp [EidPattern.matchesEid_exact_exact])
      (by simpa [EidPattern.rank, EidMatcher.rank] using hrk)
  have hea : ∀ sub', alookup l.exactAny e.nodeId = some sub' → p.rank < 2 → f sub' = none := by
    intro sub' hsub' hrk
    exact hmax ⟨.exactM e.nodeId, .anyM⟩ sub' (by simpa [AxisLevel.getSub])
      (by simp [EidPattern.matchesEid_exact_any])
      (by simpa [EidPattern.rank, EidMatcher.rank] using hrk)
  have hae : ∀ sub', alookup l.anyExact e.serviceId = some sub' → p.rank < 1 → f sub' = none := by
    intro sub' hsub' hrk
    exact hmax ⟨.anyM, .exactM e.serviceId⟩ sub' (by simpa [AxisLevel.getSub])
      (by simp [EidPattern.matchesEid_any_exact])
      (by simpa [EidPattern.rank, EidMatcher.rank] using hrk)
  obtain ⟨pn, ps⟩ := p
  unfold AxisLevel.findDescend
  cases pn <;> cases ps
  · -- p = *.* : the three more specific stages all fail
    have h1 : optFind (alookup l.exactExact (e.nodeId, e.serviceId)) f = none := by
      cases hx : alookup l.exactExact (e.nodeId, e.serviceId) with
      | some s1 => simp [optFind, hee s1 hx (by simp [EidPattern.rank, EidMatcher.rank])]
      | none => simp [optFind]
    have h2 : optFind (alookup l.exactAny e.nodeId) f = none := by
      cases hx : alookup l.exactAny e.nodeId with
      | some s1 => simp [optFind, hea s1 hx (by simp [EidPattern.rank, EidMatcher.rank])]
      | none => simp [optFind]
    have h3 : optFind (alookup l.anyExact e.serviceId) f = none := by
      cases hx : alookup l.anyExact e.serviceId with
      | some s1 => simp [optFind, hae s1 hx (by simp [EidPattern.rank, EidMatcher.rank])]
      | none => simp [optFind]
    rw [h1, h2, h3]
    simp only [AxisLevel.getSub] at hget
    simp [optFind, hget, hf]
  · -- p = *.S : the two more specific stages fail, the third succeeds
    next s =>
    have hs : s = e.serviceId := (EidPattern.matchesEid_any_exact _ e).mp hmatch
    subst hs
    have h1 : optFind (alookup l.exactExact (e.nodeId, e.serviceId)) f = none := by
      cases hx : alookup l.exactExact (e.nodeId, e.serviceId) with
      | some s1 => simp [optFind, hee s1 hx (by simp [EidPattern.rank, EidMatcher.rank])]
      | none => simp [optFind]
    have h2 : optFind (alookup l.exactAny e.nodeId) f = none := by
      cases hx : alookup l.exactAny e.nodeId with
      | some s1 => simp [optFind, hea s1 hx (by simp [EidPattern.rank, EidMatcher.rank])]
      | none => simp [optFind]
    rw [h1, h2]
    simp only [AxisLevel.getSub] at hget
    simp [optFind, hget, hf]
  · -- p = N.* : the most specific stage fails, the second succeeds
    next n =>
    have hn : n = e.nodeId := (EidPattern.matchesEid_exact_any _ e).mp hmatch
    subst hn
    have h1 : optFind (alookup l.exactExact (e.nodeId, e.serviceId)) f = none := by
      cases hx : alookup l.exactExact (e.nodeId, e.serviceId) with
      | some s1 => simp [optFind, hee s1 hx (by simp [EidPattern.rank, EidMatcher.rank])]
      | none => simp [optFind]
    rw [h1]
    simp only [AxisLevel.getSub] at hget
    simp [optFind, hget, hf]
  · -- p = N.S : the most specific stage succeeds directly
    next n s =>
    obtain ⟨hn, hs⟩ := (EidPattern.matchesEid_exact_exact _ _ e).mp hmatch
    subst hn
    subst hs
    simp only [AxisLevel.getSub] at hget
    simp [optFind, hget, hf]

/-- Soundness of the full three-level descent: a found policy lies in the
store under a key whose patterns match the query, stored for the requested
role. -/
theorem FindPolicy_mem_entries (m : BpSecPolicyManager) (ss bs bd : cbhe_eid_t)
    (r : BPSEC_ROLE) (pol : BpSecPolicy) (h : m.FindPolicy ss bs bd r = some pol) :
    ∃ k, (k, pol) ∈ managerEntries m ∧ k.matchesQuery ss bs bd = true ∧ k.role = r := by
  unfold BpSecPolicyManager.FindPolicy at h
  obtain ⟨p1, l2, hg1, hm1, h⟩ := AxisLevel.findDescend_eq_exists _ _ _ _ h
  obtain ⟨p2, l3, hg2, hm2, h⟩ := AxisLevel.findDescend_eq_exists _ _ _ _ h
  obtain ⟨p3, rs, hg3, hm3, h⟩ := AxisLevel.findDescend_eq_exists _ _ _ _ h
  exact ⟨⟨p1, p2, p3, r⟩,
    mem_managerEntries_of_chain m p1 p2 p3 r pol l2 l3 rs hg1 hg2 hg3 h,
    by simp [PolicyKeyQuad.matchesQuery, hm1, hm2, hm3], rfl⟩

/-- C8: a policy found by `find(ss, bs, bd, r)` over a well-formed store
always matches the query — its three patterns match the three concrete
EIDs and its role equals the requested role — and a store holding only
Acceptor policies yields *absent* for every Verifier query. -/
theorem c8_find_policy_sound :
    (∀ (m : BpSecPolicyManager) (ss bs bd : cbhe_eid_t) (r : BPSEC_ROLE) (pol : BpSecPolicy),
      managerWellFormed m = true → m.FindPolicy ss bs bd r = some pol →
        pol.securitySourceEidPattern.matchesEid ss = true ∧
          pol.bundleSourceEidPattern.matchesEid bs = true ∧
            pol.bundleFinalDestEidPattern.matchesEid bd = true ∧ pol.role = r) ∧
    (∀ (m : BpSecPolicyManager) (ss bs bd : cbhe_eid_t),
      (∀ e ∈ managerEntries m, e.1.role = BPSEC_ROLE.acceptor) →
        m.FindPolicy ss bs bd BPSEC_ROLE.verifier = none) := by
  constructor
  · intro m ss bs bd r pol hwf h
    obtain ⟨k, hmem, hq, hrole⟩ := FindPolicy_mem_entries m ss bs bd r pol h
    obtain ⟨f1, f2, f3, f4⟩ := managerWellFormed_spec m hwf k pol hmem
    simp only [PolicyKeyQuad.matchesQuery, Bool.and_eq_true] at hq
    exact ⟨by rw [f1]; exact hq.1.1, by rw [f2]; exact hq.1.2, by rw [f3]; exact hq.2,
      by rw [f4, hrole]⟩
  · intro m ss bs bd hacc
    cases h : m.FindPolicy ss bs bd BPSEC_ROLE.verifier with
    | none => rfl
    | some pol =>
      obtain ⟨k, hmem, _, hrole⟩ := FindPolicy_mem_entries m ss bs bd _ pol h
      have := hacc _ hmem
      rw [hrole] at this
      exact absurd this (by simp)

/-- C2: over any store, `find` returns the stored policy whose matching key
has maximal specificity, where specificity compares the per-axis pattern
ranks lexicographically in the axis priority order
`(security source, bundle source, bundle destination)` — in particular a
matching `Exact` subtree always beats a matching `Any` subtree at the
first axis where they differ. -/
theorem c2_find_most_specific (m : BpSecPolicyManager) (ss bs bd : cbhe_eid_t)
    (k : PolicyKeyQuad) (pol : BpSecPolicy)
    (hget : treeGetAtKey m.policyTree k = some pol)
    (hmatch : k.matchesQuery ss bs bd = true)
    (hmax : ∀ e ∈ managerEntries m, e.1.role = k.role → e.1.matchesQuery ss bs bd = true →
      e.1.specRank ≤ k.specRank) :
    m.FindPolicy ss bs bd k.role = some pol := by
  obtain ⟨p1, p2, p3, r⟩ := k
  simp only [PolicyKeyQuad.matchesQuery, Bool.and_eq_true] at hmatch
  obtain ⟨⟨hm1, hm2⟩, hm3⟩ := hmatch
  unfold treeGetAtKey at hget
  rw [optFind_eq_some] at hget
  obtain ⟨l2, hg1, hget⟩ := hget
  rw [optFind_eq_some] at hget
  obtain ⟨l3, hg2, hget⟩ := hget
  rw [optFind_eq_some] at hget
  obtain ⟨rs, hg3, hg4⟩ := hget
  have hb2 := EidPattern.rank_le_three p2
  have hb3 := EidPattern.rank_le_three p3
  unfold BpSecPolicyManager.FindPolicy
  apply AxisLevel.findDescend_eq_of_top _ _ _ p1 l2 _ hg1 hm1
  · -- descent inside the level stored at p1
    apply AxisLevel.findDescend_eq_of_top _ _ _ p2 l3 _ hg2 hm2
    · -- descent inside the level stored at p2
      apply AxisLevel.findDescend_eq_of_top _ _ _ p3 rs _ hg3 hm3 hg4
      intro p3' rs' hg3' hm3' hrk
      cases hx : rs'.getRole r with
      | none => rfl
      | some pol'' =>
        have hmem := mem_managerEntries_of_chain m p1 p2 p3' r pol'' l2 l3 rs' hg1 hg2 hg3' hx
        have hle := hmax _ hmem rfl
          (by simp [PolicyKeyQuad.matchesQuery, hm1, hm2, hm3'])
        simp only [PolicyKeyQuad.specRank] at hle
        omega
    · intro p2' l3' hg2' hm2' hrk
      cases hx : l3'.findDescend bd (fun rs => rs.getRole r) with
      | none => rfl
      | some pol'' =>
        obtain ⟨p3', rs', hg3', hm3', hx4⟩ := AxisLevel.findDescend_eq_exists _ _ _ _ hx
        have hb3' := EidPattern.rank_le_three p3'
        have hmem := mem_managerEntries_of_chain m p1 p2' p3' r pol'' l2 l3' rs' hg1 hg2' hg3' hx4
        have hle := hmax _ hmem rfl
          (by simp [PolicyKeyQuad.matchesQuery, hm1, hm2', hm3'])
        simp only [PolicyKeyQuad.specRank] at hle
        omega
  · intro p1' l2' hg1' hm1' hrk
    cases hx : l2'.findDescend bs
        (fun l3 => l3.findDescend bd fun rs => rs.getRole r) with
    | none => rfl
    | some pol'' =>
      obtain ⟨p2', l3', hg2', hm2', hx3⟩ := AxisLevel.findDescend_eq_exists _ _ _ _ hx
      obtain ⟨p3', rs', hg3', hm3', hx4⟩ := AxisLevel.findDescend_eq_exists _ _ _ _ hx3
      have hb2' := EidPattern.rank_le_three p2'
      have hb3' := EidPattern.rank_le_three p3'
      have hmem := mem_managerEntries_of_chain m p1' p2' p3' r pol'' l2' l3' rs' hg1' hg2' hg3' hx4
      have hle := hmax _ hmem rfl
        (by simp [PolicyKeyQuad.matchesQuery, hm1', hm2', hm3'])
      simp only [PolicyKeyQuad.specRank] at hle
      omega

/-- C7: `create_or_get` rejects malformed pattern strings and invalid
roles, returning *absent* and leaving the store unmutated. -/
theorem c7_create_or_get_rejects (m : BpSecPolicyManager) (s1 s2 s3 : String) (r : BPSEC_ROLE)
    (h : parseEidPattern s1 = none ∨ parseEidPattern s2 = none ∨ parseEidPattern s3 = none ∨
      r = BPSEC_ROLE.reservedMaxRoleTypes) :
    m.CreateOrGetNewPolicy s1 s2 s3 r = (none, m) := by
  cases hp1 : parseEidPattern s1 <;> cases hp2 : parseEidPattern s2 <;>
    cases hp3 : parseEidPattern s3 <;>
      simp_all [BpSecPolicyManager.CreateOrGetNewPolicy]

/-- C3: `create_or_get` is stable — on an absent key the first call
returns a fresh policy with `isNew = true` and every identical call
afterwards returns the very same stored policy with `isNew = false` and no
store mutation; a stored key survives arbitrary further `create_or_get`
calls. -/
theorem c3_create_or_get_stable (m : BpSecPolicyManager) (s1 s2 s3 : String) (r : BPSEC_ROLE)
    (p1 p2 p3 : EidPattern)
    (h1 : parseEidPattern s1 = some p1) (h2 : parseEidPattern s2 = some p2)
    (h3 : parseEidPattern s3 = some p3) (hr : r ≠ .reservedMaxRoleTypes) :
    (treeGetAtKey m.policyTree ⟨p1, p2, p3, r⟩ = none →
      ∃ pol m', m.CreateOrGetNewPolicy s1 s2 s3 r = (some (pol, true), m') ∧
        m'.CreateOrGetNewPolicy s1 s2 s3 r = (some (pol, false), m')) ∧
    (∀ pol, treeGetAtKey m.policyTree ⟨p1, p2, p3, r⟩ = some pol →
      m.CreateOrGetNewPolicy s1 s2 s3 r = (some (pol, false), m)) ∧
    (∀ t1 t2 t3 r' pol, treeGetAtKey m.policyTree ⟨p1, p2, p3, r⟩ = some pol →
      treeGetAtKey ((m.CreateOrGetNewPolicy t1 t2 t3 r').2).policyTree ⟨p1, p2, p3, r⟩ =
        some pol) := by
  refine ⟨?_, ?_, ?_⟩
  · intro habsent
    refine ⟨mkDefaultPolicy m.nextPolicyId ⟨p1, p2, p3, r⟩,
      { m with
        policyTree := treeInsertAtKey m.policyTree ⟨p1, p2, p3, r⟩
          (mkDefaultPolicy m.nextPolicyId ⟨p1, p2, p3, r⟩)
        nextPolicyId := m.nextPolicyId + 1 }, ?_, ?_⟩
    · simp [BpSecPolicyManager.CreateOrGetNewPolicy, h1, h2, h3, hr, habsent]
    · have hins : treeGetAtKey
          (treeInsertAtKey m.policyTree ⟨p1, p2, p3, r⟩
            (mkDefaultPolicy m.nextPolicyId ⟨p1, p2, p3, r⟩)) ⟨p1, p2, p3, r⟩ =
          some (mkDefaultPolicy m.nextPolicyId ⟨p1, p2, p3, r⟩) := by
        rw [treeGetAtKey_treeInsertAtKey _ _ _ _ hr, if_pos rfl]
      simp [BpSecPolicyManager.CreateOrGetNewPolicy, h1, h2, h3, hr, habsent, hins]
  · intro pol hpol
    simp [BpSecPolicyManager.CreateOrGetNewPolicy, h1, h2, h3, hr, hpol]
  · intro t1 t2 t3 r' pol hpol
    cases hq1 : parseEidPattern t1 with
    | none => simpa [BpSecPolicyManager.CreateOrGetNewPolicy, hq1] using hpol
    | some q1 =>
      cases hq2 : parseEidPattern t2 with
      | none => simpa [BpSecPolicyManager.CreateOrGetNewPolicy, hq1, hq2] using hpol
      | some q2 =>
        cases hq3 : parseEidPattern t3 with
        | none => simpa [BpSecPolicyManager.CreateOrGetNewPolicy, hq1, hq2, hq3] using hpol
        | some q3 =>
          by_cases hr' : r' = BPSEC_ROLE.reservedMaxRoleTypes
          · simpa [BpSecPolicyManager.CreateOrGetNewPolicy, hq1, hq2, hq3, hr'] using hpol
          · cases hex : treeGetAtKey m.policyTree ⟨q1, q2, q3, r'⟩ with
            | some pol0 =>
              simpa [BpSecPolicyManager.CreateOrGetNewPolicy, hq1, hq2, hq3, hr', hex] using hpol
            | none =>
              have hne : (⟨p1, p2, p3, r⟩ : PolicyKeyQuad) ≠ ⟨q1, q2, q3, r'⟩ := by
                intro heq
                rw [heq] at hpol
                rw [hpol] at hex
                exact Option.noConfusion hex
              have hsnd : (m.CreateOrGetNewPolicy t1 t2 t3 r').2 =
                  { m with
                    policyTree := treeInsertAtKey m.policyTree ⟨q1, q2, q3, r'⟩
                      (mkDefaultPolicy m.nextPolicyId ⟨q1, q2, q3, r'⟩)
                    nextPolicyId := m.nextPolicyId + 1 } := by
                simp [BpSecPolicyManager.CreateOrGetNewPolicy, hq1, hq2, hq3, hr', hex]
              rw [hsnd]
              simp only []
              rw [treeGetAtKey_treeInsertAtKey _ _ _ _ hr', if_neg hne]
              exact hpol

/-- A successful `create_or_get` returns a policy whose own pattern and
role fields are exactly the parsed key (for a well-formed store). -/
theorem createOrGet_policy_fields (m : BpSecPolicyManager) (s1 s2 s3 : String) (r : BPSEC_ROLE)
    (pol : BpSecPolicy) (isNew : Bool) (m' : BpSecPolicyManager)
    (hwf : managerWellFormed m = true)
    (h : m.CreateOrGetNewPolicy s1 s2 s3 r = (some (pol, isNew), m')) :
    parseEidPattern s1 = some pol.securitySourceEidPattern ∧
      parseEidPattern s2 = some pol.bundleSourceEidPattern ∧
        parseEidPattern s3 = some pol.bundleFinalDestEidPattern ∧ pol.role = r := by
  cases hp1 : parseEidPattern s1 with
  | none => simp [BpSecPolicyManager.CreateOrGetNewPolicy, hp1] at h
  | some p1 =>
    cases hp2 : parseEidPattern s2 with
    | none => simp [BpSecPolicyManager.CreateOrGetNewPolicy, hp1, hp2] at h
    | some p2 =>
      cases hp3 : parseEidPattern s3 with
      | none => simp [BpSecPolicyManager.CreateOrGetNewPolicy, hp1, hp2, hp3] at h
      | some p3 =>
        by_cases hr : r = BPSEC_ROLE.reservedMaxRoleTypes
        · simp [BpSecPolicyManager.CreateOrGetNewPolicy, hp1, hp2, hp3, hr] at h
        · cases hex : treeGetAtKey m.policyTree ⟨p1, p2, p3, r⟩ with
          | some pol0 =>
            have heq : pol0 = pol := by
              simp [BpSecPolicyManager.CreateOrGetNewPolicy, hp1, hp2, hp3, hr, hex] at h
              exact h.1.1
            subst heq
            obtain ⟨f1, f2, f3, f4⟩ := managerWellFormed_spec m hwf _ _
              (mem_managerEntries_of_treeGetAtKey m _ _ hex)
            exact ⟨by rw [f1], by rw [f2], by rw [f3], by rw [f4]⟩
          | none =>
            have heq : mkDefaultPolicy m.nextPolicyId ⟨p1, p2, p3, r⟩ = pol := by
              simp [BpSecPolicyManager.CreateOrGetNewPolicy, hp1, hp2, hp3, hr, hex] at h
              exact h.1.1
            rw [← heq]
            exact ⟨by rw [mkDefaultPolicy], by rw [mkDefaultPolicy], by rw [mkDefaultPolicy], rfl⟩

/-- C10: distinct key-roles map to distinct policies — two successful
`create_or_get` calls over well-formed stores whose parsed pattern triples
or roles differ return distinct policy objects. -/
theorem c10_distinct_keys_distinct_policies (mA mB : BpSecPolicyManager)
    (s1 s2 s3 t1 t2 t3 : String) (r r' : BPSEC_ROLE)
    (polA polB : BpSecPolicy) (bA bB : Bool) (mA' mB' : BpSecPolicyManager)
    (hwfA : managerWellFormed mA = true) (hwfB : managerWellFormed mB = true)
    (hA : mA.CreateOrGetNewPolicy s1 s2 s3 r = (some (polA, bA), mA'))
    (hB : mB.CreateOrGetNewPolicy t1 t2 t3 r' = (some (polB, bB), mB'))
    (hne : (parseEidPattern s1, parseEidPattern s2, parseEidPattern s3, r) ≠
      (parseEidPattern t1, parseEidPattern t2, parseEidPattern t3, r')) :
    polA ≠ polB := by
  obtain ⟨fA1, fA2, fA3, fA4⟩ := createOrGet_policy_fields mA s1 s2 s3 r polA bA mA' hwfA hA
  obtain ⟨fB1, fB2, fB3, fB4⟩ := createOrGet_policy_fields mB t1 t2 t3 r' polB bB mB' hwfB hB
  intro heq
  apply hne
  rw [fA1, fA2, fA3, ← fA4, fB1, fB2, fB3, ← fB4, heq]

/-- C6: cache coherence of `find_with_cache` — a query not matching the
remembered tuple (in particular any query on a fresh cache) consults the
store, returns exactly the uncached `find` result (also when that result
is *absent*) with `wasCacheHit = false`, and an immediately repeated
identical query on the unchanged store returns the same result with
`wasCacheHit = true`. -/
theorem c6_cache_coherence (m : BpSecPolicyManager) (ss bs bd : cbhe_eid_t) (role : BPSEC_ROLE)
    (cache : PolicySearchCache) (hne : cache.lastQuery ≠ some (ss, bs, bd, role)) :
    (m.FindPolicyWithCacheSupport ss bs bd role cache).1 = m.FindPolicy ss bs bd role ∧
      (m.FindPolicyWithCacheSupport ss bs bd role cache).2.wasCacheHit = false ∧
        (m.FindPolicyWithCacheSupport ss bs bd role
            (m.FindPolicyWithCacheSupport ss bs bd role cache).2).1 =
          m.FindPolicy ss bs bd role ∧
          (m.FindPolicyWithCacheSupport ss bs bd role
              (m.FindPolicyWithCacheSupport ss bs bd role cache).2).2.wasCacheHit = true := by
  simp [BpSecPolicyManager.FindPolicyWithCacheSupport, hne]

theorem foldl_applySecurityAction_spec (bcb : BcbBlock) (acts : List SecurityAction)
    (acc : RxProcessState × Bool) :
    ((acts.foldl (applySecurityAction bcb) acc).1.dropBundle = true ↔
        (acc.1.dropBundle = true ∨ SecurityAction.failBundleForwarding ∈ acts)) ∧
      (acts.foldl (applySecurityAction bcb) acc).1.firedActions =
        acc.1.firedActions ++ acts ∧
      (acts.foldl (applySecurityAction bcb) acc).1.firedEvents = acc.1.firedEvents := by
  induction acts generalizing acc with
  | nil => simp
  | cons a rest ih =>
    obtain ⟨st, removed⟩ := acc
    have h := ih (applySecurityAction bcb (st, removed) a)
    refine ⟨?_, ?_, ?_⟩
    · rw [List.foldl_cons, h.1]
      cases a <;> simp [applySecurityAction, List.mem_cons]
    · rw [List.foldl_cons, h.2.1]
      cases a <;> simp [applySecurityAction]
    · rw [List.foldl_cons, h.2.2]
      cases a <;> simp [applySecurityAction]

theorem foldl_applySecurityAction_blocks (bcb : BcbBlock) (acts : List SecurityAction)
    (acc : RxProcessState × Bool) :
    (acts.foldl (applySecurityAction bcb) acc).1.blocks.Sublist acc.1.blocks := by
  induction acts generalizing acc with
  | nil => simp
  | cons a rest ih =>
    obtain ⟨st, removed⟩ := acc
    rw [List.foldl_cons]
    refine (ih (applySecurityAction bcb (st, removed) a)).trans ?_
    cases a <;> simp [applySecurityAction]

theorem triggerSecurityEvent_spec (bcb : BcbBlock) (ev : SecurityEventId)
    (es : SecurityEventSet) (st : RxProcessState) (removed : Bool) :
    ((triggerSecurityEvent bcb ev es st removed).1.dropBundle = true ↔
        (st.dropBundle = true ∨
          SecurityAction.failBundleForwarding ∈ (alookup es ev).getD [])) ∧
      (triggerSecurityEvent bcb ev es st removed).1.firedActions =
        st.firedActions ++ (alookup es ev).getD [] ∧
      (triggerSecurityEvent bcb ev es st removed).1.firedEvents =
        st.firedEvents ++ [ev] ∧
      (triggerSecurityEvent bcb ev es st removed).1.blocks.Sublist st.blocks := by
  unfold triggerSecurityEvent
  refine ⟨?_, ?_, ?_, ?_⟩
  · rw [(foldl_applySecurityAction_spec _ _ _).1]
  · rw [(foldl_applySecurityAction_spec _ _ _).2.1]
  · rw [(foldl_applySecurityAction_spec _ _ _).2.2]
  · exact foldl_applySecurityAction_blocks _ _ _

theorem keepBcbUnlessRemoved_fields (bcb : BcbBlock) (acc : RxProcessState × Bool) :
    (keepBcbUnlessRemoved bcb acc).dropBundle = acc.1.dropBundle ∧
      (keepBcbUnlessRemoved bcb acc).firedActions = acc.1.firedActions ∧
        (keepBcbUnlessRemoved bcb acc).firedEvents = acc.1.firedEvents ∧
          (keepBcbUnlessRemoved bcb acc).blocks = acc.1.blocks := by
  obtain ⟨st, removed⟩ := acc
  cases removed <;> simp [keepBcbUnlessRemoved]

/-- The bundle-wide drop flag tracks exactly the observable failure trace:
a fired `failBundleForwarding` action or a `sopCorruptedAtAcceptor`
event. -/
def dropInvariant (st : RxProcessState) : Prop :=
  st.dropBundle = true ↔
    (SecurityAction.failBundleForwarding ∈ st.firedActions ∨
      SecurityEventId.sopCorruptedAtAcceptor ∈ st.firedEvents)

theorem processOneBcb_acceptor_success (m : BpSecPolicyManager) (src dst : cbhe_eid_t)
    (st : RxProcessState) (bcb : BcbBlock) (pol : BpSecPolicy)
    (hacc : m.FindPolicy bcb.securitySource src dst BPSEC_ROLE.acceptor = some pol)
    (hserv : pol.securityService = BPSEC_SECURITY_SERVICE.confidentiality)
    (hdec : bcbFullyDecryptable pol.confidentialityKey st.blocks bcb.securityTargets = true) :
    processOneBcb m src dst st bcb =
      { st with
        blocks := st.blocks.map (decryptBlockIfTargeted pol.confidentialityKey
          bcb.securityTargets) } := by
  unfold processOneBcb
  simp only [hacc, hserv, hdec, if_true]

theorem processOneBcb_acceptor_corrupted (m : BpSecPolicyManager) (src dst : cbhe_eid_t)
    (st : RxProcessState) (bcb : BcbBlock) (pol : BpSecPolicy)
    (hacc : m.FindPolicy bcb.securitySource src dst BPSEC_ROLE.acceptor = some pol)
    (hserv : pol.securityService = BPSEC_SECURITY_SERVICE.confidentiality)
    (hdec : bcbFullyDecryptable pol.confidentialityKey st.blocks bcb.securityTargets = false) :
    processOneBcb m src dst st bcb =
      keepBcbUnlessRemoved bcb
        ({ (triggerSecurityEvent bcb .sopCorruptedAtAcceptor pol.eventSet st false).1 with
            dropBundle := true },
          (triggerSecurityEvent bcb .sopCorruptedAtAcceptor pol.eventSet st false).2) := by
  unfold processOneBcb
  simp only [hacc, hserv, hdec, Bool.false_eq_true, if_false]

theorem processOneBcb_acceptor_misconfigured (m : BpSecPolicyManager) (src dst : cbhe_eid_t)
    (st : RxProcessState) (bcb : BcbBlock) (pol : BpSecPolicy)
    (hacc : m.FindPolicy bcb.securitySource src dst BPSEC_ROLE.acceptor = some pol)
    (hserv : pol.securityService = BPSEC_SECURITY_SERVICE.integrity) :
    processOneBcb m src dst st bcb =
      keepBcbUnlessRemoved bcb
        (triggerSecurityEvent bcb .sopMisconfiguredAtAcceptor pol.eventSet st false) := by
  unfold processOneBcb
  simp only [hacc, hserv]

theorem processOneBcb_verifier (m : BpSecPolicyManager) (src dst : cbhe_eid_t)
    (st : RxProcessState) (bcb : BcbBlock) (pol : BpSecPolicy)
    (hacc : m.FindPolicy bcb.securitySource src dst BPSEC_ROLE.acceptor = none)
    (hver : m.FindPolicy bcb.securitySource src dst BPSEC_ROLE.verifier = some pol) :
    processOneBcb m src dst st bcb = { st with keptBcbs := st.keptBcbs ++ [bcb] } := by
  unfold processOneBcb
  simp only [hacc, hver]

theorem processOneBcb_missing_default (m : BpSecPolicyManager) (src dst : cbhe_eid_t)
    (st : RxProcessState) (bcb : BcbBlock) (es : SecurityEventSet)
    (hacc : m.FindPolicy bcb.securitySource src dst BPSEC_ROLE.acceptor = none)
    (hver : m.FindPolicy bcb.securitySource src dst BPSEC_ROLE.verifier = none)
    (hdes : m.defaultEventSet = some es) :
    processOneBcb m src dst st bcb =
      keepBcbUnlessRemoved bcb (triggerSecurityEvent bcb .sopMissingAtAcceptor es st false) := by
  unfold processOneBcb
  simp only [hacc, hver, hdes]

theorem processOneBcb_missing_noDefault (m : BpSecPolicyManager) (src dst : cbhe_eid_t)
    (st : RxProcessState) (bcb : BcbBlock)
    (hacc : m.FindPolicy bcb.securitySource src dst BPSEC_ROLE.acceptor = none)
    (hver : m.FindPolicy bcb.securitySource src dst BPSEC_ROLE.verifier = none)
    (hdes : m.defaultEventSet = none) :
    processOneBcb m src dst st bcb =
      { st with
        firedEvents := st.firedEvents ++ [.sopMissingAtAcceptor]
        keptBcbs := st.keptBcbs ++ [bcb] } := by
  unfold processOneBcb
  simp only [hacc, hver, hdes]

theorem processOneBcb_dropInvariant (m : BpSecPolicyManager) (src dst : cbhe_eid_t)
    (st : RxProcessState) (bcb : BcbBlock) (h : dropInvariant st) :
    dropInvariant (processOneBcb m src dst st bcb) := by
  unfold dropInvariant at h ⊢
  cases hacc : m.FindPolicy bcb.securitySource src dst BPSEC_ROLE.acceptor with
  | some pol =>
    cases hserv : pol.securityService with
    | confidentiality =>
      by_cases hdec : bcbFullyDecryptable pol.confidentialityKey st.blocks
          bcb.securityTargets = true
      · rw [processOneBcb_acceptor_success m src dst st bcb pol hacc hserv hdec]
        exact h
      · rw [Bool.not_eq_true] at hdec
        rw [processOneBcb_acceptor_corrupted m src dst st bcb pol hacc hserv hdec]
        have hk := keepBcbUnlessRemoved_fields bcb
          (⟨{ (triggerSecurityEvent bcb .sopCorruptedAtAcceptor pol.eventSet st false).1 with
              dropBundle := true },
            (triggerSecurityEvent bcb .sopCorruptedAtAcceptor pol.eventSet st false).2⟩)
        have ht := triggerSecurityEvent_spec bcb .sopCorruptedAtAcceptor pol.eventSet st false
        rw [hk.1, hk.2.1, hk.2.2.1]
        simp only [ht.2.1, ht.2.2.1]
        simp [List.mem_append]
    | integrity =>
      rw [processOneBcb_acceptor_misconfigured m src dst st bcb pol hacc hserv]
      have hk := keepBcbUnlessRemoved_fields bcb
        (triggerSecurityEvent bcb .sopMisconfiguredAtAcceptor pol.eventSet st false)
      have ht := triggerSecurityEvent_spec bcb .sopMisconfiguredAtAcceptor pol.eventSet st false
      rw [hk.1, hk.2.1, hk.2.2.1, ht.2.1, ht.2.2.1]
      rw [ht.1]
      rw [h]
      have hne : SecurityEventId.sopCorruptedAtAcceptor ∉
          [SecurityEventId.sopMisconfiguredAtAcceptor] := by simp
      simp only [List.mem_append]
      tauto
  | none =>
    cases hver : m.FindPolicy bcb.securitySource src dst BPSEC_ROLE.verifier with
    | some pol =>
      rw [processOneBcb_verifier m src dst st bcb pol hacc hver]
      exact h
    | none =>
      cases hdes : m.defaultEventSet with
      | some es =>
        rw [processOneBcb_missing_default m src dst st bcb es hacc hver hdes]
        have hk := keepBcbUnlessRemoved_fields bcb
          (triggerSecurityEvent bcb .sopMissingAtAcceptor es st false)
        have ht := triggerSecurityEvent_spec bcb .sopMissingAtAcceptor es st false
        rw [hk.1, hk.2.1, hk.2.2.1, ht.2.1, ht.2.2.1]
        rw [ht.1]
        rw [h]
        have hne : SecurityEventId.sopCorruptedAtAcceptor ∉
            [SecurityEventId.sopMissingAtAcceptor] := by simp
        simp only [List.mem_append]
        tauto
      | none =>
        rw [processOneBcb_missing_noDefault m src dst st bcb hacc hver hdes]
        have hne : SecurityEventId.sopCorruptedAtAcceptor ∉
            [SecurityEventId.sopMissingAtAcceptor] := by simp
        simp only [List.mem_append]
        rw [h]
        tauto

/-- C4 (amended): `process_incoming` returns `Drop` exactly when a
`failBundleForwarding` action fired or a security operation failed
(corrupted) at an acceptor while applying the triggered event sets; in
every other case it returns `Accept` with the event-set mutations applied
to the returned bundle. -/
theorem c4_drop_iff_failure_trace (m : BpSecPolicyManager) (bv : BundleViewModel) :
    (m.ProcessReceivedBundle bv).dropBundle = true ↔
      (SecurityAction.failBundleForwarding ∈ (m.ProcessReceivedBundle bv).firedActions ∨
        SecurityEventId.sopCorruptedAtAcceptor ∈ (m.ProcessReceivedBundle bv).firedEvents) := by
  have hfold : ∀ (bcbs : List BcbBlock) (st : RxProcessState), dropInvariant st →
      dropInvariant (bcbs.foldl (processOneBcb m bv.sourceNodeId bv.destinationEid) st) := by
    intro bcbs
    induction bcbs with
    | nil => intro st h; exact h
    | cons b rest ih =>
      intro st h
      rw [List.foldl_cons]
      exact ih _ (processOneBcb_dropInvariant m _ _ st b h)
  have h0 : dropInvariant
      { blocks := bv.canonicalBlocks, keptBcbs := [], firedEvents := [], firedActions := []
        doNotForward := false, storageRequested := false, dropBundle := false } := by
    simp [dropInvariant]
  exact hfold bv.bcbBlocks _ h0

theorem blockContains_iff (l : List Nat) (a : Nat) : l.contains a = true ↔ a ∈ l :=
  List.elem_iff

theorem encryptBlockIfTargeted_blockNumber (k : Nat) (t : List Nat) (b : CanonicalBlock) :
    (encryptBlockIfTargeted k t b).blockNumber = b.blockNumber := by
  unfold encryptBlockIfTargeted
  split <;> rfl

theorem encryptBlockIfTargeted_blockTypeCode (k : Nat) (t : List Nat) (b : CanonicalBlock) :
    (encryptBlockIfTargeted k t b).blockTypeCode = b.blockTypeCode := by
  unfold encryptBlockIfTargeted
  split <;> rfl

theorem processOutgoing_characterization (m : BpSecPolicyManager) (bv : BundleViewModel)
    (localSS : cbhe_eid_t) (pol : BpSecPolicy)
    (hfind : m.FindPolicy localSS bv.sourceNodeId bv.destinationEid .source = some pol)
    (hserv : pol.securityService = .confidentiality)
    (hne : (bv.canonicalBlocks.filter fun b =>
      pol.securityTargetBlockTypes.contains b.blockTypeCode).isEmpty = false) :
    m.FindPolicyAndProcessOutgoingBundle bv localSS =
      some { bv with
        canonicalBlocks := bv.canonicalBlocks.map
          (encryptBlockIfTargeted pol.confidentialityKey pol.securityTargetBlockTypes)
        bcbBlocks := bv.bcbBlocks ++
          [{ securitySource := localSS
             securityTargets := (bv.canonicalBlocks.filter fun b =>
               pol.securityTargetBlockTypes.contains b.blockTypeCode).map
                 fun b => b.blockNumber }] } := by
  unfold BpSecPolicyManager.FindPolicyAndProcessOutgoingBundle
  simp only [hfind, hserv, hne, Bool.false_eq_true, if_false]

theorem targeted_isEmpty_false (bv : BundleViewModel) (tgt : List Nat)
    (hpay : GetCanonicalBlocksByType bv payloadBlockType ≠ [])
    (htarget : tgt.contains payloadBlockType = true) :
    (bv.canonicalBlocks.filter fun b => tgt.contains b.blockTypeCode).isEmpty = false := by
  rw [List.isEmpty_eq_false]
  obtain ⟨pb, hpb⟩ := List.exists_mem_of_ne_nil _ hpay
  rw [GetCanonicalBlocksByType, List.mem_filter] at hpb
  have htype : pb.blockTypeCode = payloadBlockType := by simpa using hpb.2
  intro hnil
  have hmem : pb ∈ bv.canonicalBlocks.filter fun b => tgt.contains b.blockTypeCode :=
    List.mem_filter.mpr ⟨hpb.1, by rw [htype]; exact htarget⟩
  rw [hnil] at hmem
  simp at hmem

/-- C1: the confidentiality round trip. For a bundle with a payload block
and no pre-attached security blocks, encrypting at a matching Source-role
confidentiality policy over the payload block type and then processing at
a node whose matching Acceptor-role policy holds the same key yields
`Accept`, with every payload block's bytes restored to the pre-encryption
bytes and its `isEncrypted` indicator false. -/
theorem c1_confidentiality_roundtrip (mTx mRx : BpSecPolicyManager)
    (bv bv' : BundleViewModel) (localSS : cbhe_eid_t) (polTx polRx : BpSecPolicy)
    (hnodup : (bv.canonicalBlocks.map fun b => b.blockNumber).Nodup)
    (hnobcb : bv.bcbBlocks = [])
    (hpay : GetCanonicalBlocksByType bv payloadBlockType ≠ [])
    (hfindTx : mTx.FindPolicy localSS bv.sourceNodeId bv.destinationEid .source = some polTx)
    (hservTx : polTx.securityService = .confidentiality)
    (htarget : polTx.securityTargetBlockTypes.contains payloadBlockType = true)
    (hout : mTx.FindPolicyAndProcessOutgoingBundle bv localSS = some bv')
    (hfindRx : mRx.FindPolicy localSS bv.sourceNodeId bv.destinationEid .acceptor = some polRx)
    (hservRx : polRx.securityService = .confidentiality)
    (hkey : polRx.confidentialityKey = polTx.confidentialityKey) :
    (mRx.ProcessReceivedBundle bv').dropBundle = false ∧
      GetCanonicalBlocksByType (mRx.ProcessReceivedBundle bv').bundle payloadBlockType =
        (GetCanonicalBlocksByType bv payloadBlockType).map
          (fun b => { b with isEncrypted := false }) ∧
      (mRx.ProcessReceivedBundle bv').bundle.bcbBlocks = [] := by
  have hne := targeted_isEmpty_false bv polTx.securityTargetBlockTypes hpay htarget
  rw [processOutgoing_characterization mTx bv localSS polTx hfindTx hservTx hne] at hout
  have hbv' : bv' =
      { bv with
        canonicalBlocks := bv.canonicalBlocks.map
          (encryptBlockIfTargeted polTx.confidentialityKey polTx.securityTargetBlockTypes)
        bcbBlocks := bv.bcbBlocks ++
          [{ securitySource := localSS
             securityTargets := (bv.canonicalBlocks.filter fun b =>
               polTx.securityTargetBlockTypes.contains b.blockTypeCode).map
                 fun b => b.blockNumber }] } := by
    injection hout with h
    exact h.symm
  subst hbv'
  -- abbreviations
  set tgt := polTx.securityTargetBlockTypes with htgt
  set key := polTx.confidentialityKey with hkeydef
  set targetsList := (bv.canonicalBlocks.filter fun b => tgt.contains b.blockTypeCode).map
    (fun b => b.blockNumber) with htl
  -- membership in the BCB target list characterizes targeted blocks
  have hmem_of_targeted : ∀ b ∈ bv.canonicalBlocks, tgt.contains b.blockTypeCode = true →
      b.blockNumber ∈ targetsList := by
    intro b hb hP
    rw [htl]
    exact List.mem_map.mpr ⟨b, List.mem_filter.mpr ⟨hb, hP⟩, rfl⟩
  have htargeted_of_mem : ∀ b ∈ bv.canonicalBlocks, b.blockNumber ∈ targetsList →
      tgt.contains b.blockTypeCode = true := by
    intro b hb hn
    rw [htl] at hn
    obtain ⟨b2, hb2, hnum⟩ := List.mem_map.mp hn
    rw [List.mem_filter] at hb2
    have heqb : b2 = b := List.inj_on_of_nodup_map hnodup hb2.1 hb hnum
    rw [← heqb]
    exact hb2.2
  -- the received-bundle processing of the single attached BCB succeeds
  have hdec : bcbFullyDecryptable polRx.confidentialityKey
      (bv.canonicalBlocks.map (encryptBlockIfTargeted key tgt)) targetsList = true := by
    unfold bcbFullyDecryptable
    rw [Bool.and_eq_true]
    constructor
    · rw [List.all_eq_true]
      intro n hn
      rw [htl] at hn
      obtain ⟨b2, hb2, hnum⟩ := List.mem_map.mp hn
      rw [List.mem_filter] at hb2
      rw [List.any_eq_true]
      refine ⟨encryptBlockIfTargeted key tgt b2, List.mem_map.mpr ⟨b2, hb2.1, rfl⟩, ?_⟩
      rw [encryptBlockIfTargeted_blockNumber, hnum]
      simp
    · rw [List.all_eq_true]
      intro b' hb'
      obtain ⟨b, hb, hbeq⟩ := List.mem_map.mp hb'
      rw [← hbeq]
      by_cases hP : tgt.contains b.blockTypeCode = true
      · have : (aeadOpen polRx.confidentialityKey
            (encryptBlockIfTargeted key tgt b).blockData).isSome = true := by
          unfold encryptBlockIfTargeted
          rw [if_pos hP]
          rw [hkey]
          simp [aeadOpen_aeadSeal_same]
        rw [this]
        simp
      · have hnc : targetsList.contains (encryptBlockIfTargeted key tgt b).blockNumber =
            false := by
          rw [encryptBlockIfTargeted_blockNumber]
          rw [Bool.eq_false_iff]
          intro hc
          exact hP (htargeted_of_mem b hb ((blockContains_iff _ _).mp hc))
        rw [hnc]
        simp
  -- compute the result of ProcessReceivedBundle
  unfold BpSecPolicyManager.ProcessReceivedBundle
  rw [hnobcb]
  simp only [List.nil_append, List.foldl_cons, List.foldl_nil]
  rw [processOneBcb_acceptor_success mRx _ _ _ _ polRx hfindRx hservRx hdec]
  refine ⟨rfl, ?_, rfl⟩
  -- the decrypted block list restores the original data
  simp only []
  rw [GetCanonicalBlocksByType, GetCanonicalBlocksByType]
  rw [List.map_map]
  have hpt : ∀ b ∈ bv.canonicalBlocks,
      (decryptBlockIfTargeted polRx.confidentialityKey targetsList ∘
        encryptBlockIfTargeted key tgt) b =
      if tgt.contains b.blockTypeCode then { b with isEncrypted := false } else b := by
    intro b hb
    simp only [Function.comp_apply]
    by_cases hP : tgt.contains b.blockTypeCode = true
    · rw [if_pos hP]
      have henc : encryptBlockIfTargeted key tgt b =
          { b with blockData := aeadSeal key b.blockData, isEncrypted := true } := by
        unfold encryptBlockIfTargeted
        rw [if_pos hP]
      rw [henc]
      unfold decryptBlockIfTargeted
      rw [if_pos (by
        rw [blockContains_iff]
        exact hmem_of_targeted b hb hP)]
      rw [hkey]
      simp [aeadOpen_aeadSeal_same]
    · rw [if_neg hP]
      have henc : encryptBlockIfTargeted key tgt b = b := by
        unfold encryptBlockIfTargeted
        rw [if_neg hP]
      rw [henc]
      unfold decryptBlockIfTargeted
      rw [if_neg (by
        rw [blockContains_iff]
        intro hc
        exact hP (htargeted_of_mem b hb hc))]
  rw [List.map_congr_left hpt]
  rw [List.filter_map]
  have hfc : ∀ b ∈ bv.canonicalBlocks,
      ((fun x => x.blockTypeCode == payloadBlockType) ∘ fun b =>
        if tgt.contains b.blockTypeCode = true then { b with isEncrypted := false } else b) b =
      (b.blockTypeCode == payloadBlockType) := by
    intro b hb
    simp only [Function.comp_apply]
    split <;> rfl
  rw [List.filter_congr hfc]
  apply List.map_congr_left
  intro b hb
  rw [List.mem_filter] at hb
  have htype : b.blockTypeCode = payloadBlockType := by simpa using hb.2
  rw [if_pos (by rw [htype]; exact htarget)]

/-- C5: swapping the acceptor's key for any key distinct from the
encrypting key makes `process_incoming` return `Drop`, and the payload
plaintext is not exposed: every payload block of the resulting bundle
still carries the ciphertext, which differs from its plaintext. -/
theorem c5_wrong_key_drops (mTx mRx : BpSecPolicyManager)
    (bv bv' : BundleViewModel) (localSS : cbhe_eid_t) (polTx polRx : BpSecPolicy)
    (hnobcb : bv.bcbBlocks = [])
    (hpay : GetCanonicalBlocksByType bv payloadBlockType ≠ [])
    (hfindTx : mTx.FindPolicy localSS bv.sourceNodeId bv.destinationEid .source = some polTx)
    (hservTx : polTx.securityService = .confidentiality)
    (htarget : polTx.securityTargetBlockTypes.contains payloadBlockType = true)
    (hout : mTx.FindPolicyAndProcessOutgoingBundle bv localSS = some bv')
    (hfindRx : mRx.FindPolicy localSS bv.sourceNodeId bv.destinationEid .acceptor = some polRx)
    (hservRx : polRx.securityService = .confidentiality)
    (hkeyne : polRx.confidentialityKey ≠ polTx.confidentialityKey) :
    (mRx.ProcessReceivedBundle bv').dropBundle = true ∧
      ∀ b ∈ GetCanonicalBlocksByType (mRx.ProcessReceivedBundle bv').bundle payloadBlockType,
        ∃ b0 ∈ GetCanonicalBlocksByType bv payloadBlockType,
          b.blockData = aeadSeal polTx.confidentialityKey b0.blockData ∧
            b.blockData ≠ b0.blockData := by
  have hne := targeted_isEmpty_false bv polTx.securityTargetBlockTypes hpay htarget
  rw [processOutgoing_characterization mTx bv localSS polTx hfindTx hservTx hne] at hout
  have hbv' : bv' =
      { bv with
        canonicalBlocks := bv.canonicalBlocks.map
          (encryptBlockIfTargeted polTx.confidentialityKey polTx.securityTargetBlockTypes)
        bcbBlocks := bv.bcbBlocks ++
          [{ securitySource := localSS
             securityTargets := (bv.canonicalBlocks.filter fun b =>
               polTx.securityTargetBlockTypes.contains b.blockTypeCode).map
                 fun b => b.blockNumber }] } := by
    injection hout with h
    exact h.symm
  subst hbv'
  set tgt := polTx.securityTargetBlockTypes with htgt
  set key := polTx.confidentialityKey with hkeydef
  set targetsList := (bv.canonicalBlocks.filter fun b => tgt.contains b.blockTypeCode).map
    (fun b => b.blockNumber) with htl
  obtain ⟨pb, hpb⟩ := List.exists_mem_of_ne_nil _ hpay
  rw [GetCanonicalBlocksByType, List.mem_filter] at hpb
  have hptype : pb.blockTypeCode = payloadBlockType := by simpa using hpb.2
  have hptgt : tgt.contains pb.blockTypeCode = true := by rw [hptype]; exact htarget
  -- the acceptor cannot decrypt under the wrong key
  have hdecf : bcbFullyDecryptable polRx.confidentialityKey
      (bv.canonicalBlocks.map (encryptBlockIfTargeted key tgt)) targetsList = false := by
    have hB : ((bv.canonicalBlocks.map (encryptBlockIfTargeted key tgt)).all fun b =>
        !(targetsList.contains b.blockNumber) ||
          (aeadOpen polRx.confidentialityKey b.blockData).isSome) = false := by
      rw [Bool.eq_false_iff]
      intro hall
      rw [List.all_eq_true] at hall
      have hmem : encryptBlockIfTargeted key tgt pb ∈
          bv.canonicalBlocks.map (encryptBlockIfTargeted key tgt) :=
        List.mem_map.mpr ⟨pb, hpb.1, rfl⟩
      have hcontains : targetsList.contains
          (encryptBlockIfTargeted key tgt pb).blockNumber = true := by
        rw [encryptBlockIfTargeted_blockNumber, blockContains_iff, htl]
        exact List.mem_map.mpr ⟨pb, List.mem_filter.mpr ⟨hpb.1, hptgt⟩, rfl⟩
      have hopen : (aeadOpen polRx.confidentialityKey
          (encryptBlockIfTargeted key tgt pb).blockData).isSome = false := by
        unfold encryptBlockIfTargeted
        rw [if_pos hptgt]
        simp only []
        rw [aeadOpen_aeadSeal_wrong key polRx.confidentialityKey pb.blockData hkeyne]
        rfl
      have := hall _ hmem
      rw [hcontains, hopen] at this
      simp at this
    unfold bcbFullyDecryptable
    rw [hB, Bool.and_false]
  -- the received-bundle processing takes the corrupted branch and drops
  unfold BpSecPolicyManager.ProcessReceivedBundle
  rw [hnobcb]
  simp only [List.nil_append, List.foldl_cons, List.foldl_nil]
  rw [processOneBcb_acceptor_corrupted mRx _ _ _ _ polRx hfindRx hservRx hdecf]
  set stTrig := triggerSecurityEvent
    { securitySource := localSS, securityTargets := targetsList }
    SecurityEventId.sopCorruptedAtAcceptor polRx.eventSet
    { blocks := bv.canonicalBlocks.map (encryptBlockIfTargeted key tgt), keptBcbs := [],
      firedEvents := [], firedActions := [], doNotForward := false, storageRequested := false,
      dropBundle := false } false with hstTrig
  have hk := keepBcbUnlessRemoved_fields
    { securitySource := localSS, securityTargets := targetsList }
    (⟨{ stTrig.1 with dropBundle := true }, stTrig.2⟩)
  constructor
  · rw [hk.1]
  · intro b hb
    rw [GetCanonicalBlocksByType, List.mem_filter] at hb
    have hbmem : b ∈ bv.canonicalBlocks.map (encryptBlockIfTargeted key tgt) := by
      have hsub : stTrig.1.blocks.Sublist
          (bv.canonicalBlocks.map (encryptBlockIfTargeted key tgt)) := by
        rw [hstTrig]
        exact (triggerSecurityEvent_spec _ _ _ _ _).2.2.2
      apply hsub.subset
      have hblocks : (keepBcbUnlessRemoved
          { securitySource := localSS, securityTargets := targetsList }
          (⟨{ stTrig.1 with dropBundle := true }, stTrig.2⟩)).blocks = stTrig.1.blocks := hk.2.2.2
      rw [← hblocks]
      exact hb.1
    obtain ⟨b0, hb0, hbeq⟩ := List.mem_map.mp hbmem
    have hbtype : b.blockTypeCode = payloadBlockType := by simpa using hb.2
    have hb0type : b0.blockTypeCode = payloadBlockType := by
      rw [← hbtype, ← hbeq, encryptBlockIfTargeted_blockTypeCode]
    have hb0tgt : tgt.contains b0.blockTypeCode = true := by rw [hb0type]; exact htarget
    refine ⟨b0, ?_, ?_, ?_⟩
    · rw [GetCanonicalBlocksByType, List.mem_filter]
      exact ⟨hb0, by rw [hb0type]; simp⟩
    · rw [← hbeq]
      unfold encryptBlockIfTargeted
      rw [if_pos hb0tgt]
    · rw [← hbeq]
      unfold encryptBlockIfTargeted
      rw [if_pos hb0tgt]
      exact aeadSeal_ne key b0.blockData

/-- C9: after a successful `process_outgoing` under a confidentiality
policy targeting the payload block type, re-serializing and reloading the
bundle shows the payload block present with its `isEncrypted` indicator
true (the loader derives the indicator from the attached BCB's target
list); it stays so until a matching acceptor processes the bundle. -/
theorem c9_outgoing_marks_payload_encrypted (mTx : BpSecPolicyManager)
    (bv bv' : BundleViewModel) (localSS : cbhe_eid_t) (polTx : BpSecPolicy)
    (hpay : GetCanonicalBlocksByType bv payloadBlockType ≠ [])
    (hfindTx : mTx.FindPolicy localSS bv.sourceNodeId bv.destinationEid .source = some polTx)
    (hservTx : polTx.securityService = .confidentiality)
    (htarget : polTx.securityTargetBlockTypes.contains payloadBlockType = true)
    (hout : mTx.FindPolicyAndProcessOutgoingBundle bv localSS = some bv') :
    GetCanonicalBlocksByType (CopyAndLoadBundle bv') payloadBlockType ≠ [] ∧
      ∀ b ∈ GetCanonicalBlocksByType (CopyAndLoadBundle bv') payloadBlockType,
        b.isEncrypted = true := by
  have hne := targeted_isEmpty_false bv polTx.securityTargetBlockTypes hpay htarget
  rw [processOutgoing_characterization mTx bv localSS polTx hfindTx hservTx hne] at hout
  have hbv' : bv' =
      { bv with
        canonicalBlocks := bv.canonicalBlocks.map
          (encryptBlockIfTargeted polTx.confidentialityKey polTx.securityTargetBlockTypes)
        bcbBlocks := bv.bcbBlocks ++
          [{ securitySource := localSS
             securityTargets := (bv.canonicalBlocks.filter fun b =>
               polTx.securityTargetBlockTypes.contains b.blockTypeCode).map
                 fun b => b.blockNumber }] } := by
    injection hout with h
    exact h.symm
  subst hbv'
  set tgt := polTx.securityTargetBlockTypes with htgt
  set key := polTx.confidentialityKey with hkeydef
  set targetsList := (bv.canonicalBlocks.filter fun b => tgt.contains b.blockTypeCode).map
    (fun b => b.blockNumber) with htl
  obtain ⟨pb, hpb⟩ := List.exists_mem_of_ne_nil _ hpay
  rw [GetCanonicalBlocksByType, List.mem_filter] at hpb
  have hptype : pb.blockTypeCode = payloadBlockType := by simpa using hpb.2
  constructor
  · intro hnil
    have hmem : (fun (b : CanonicalBlock) => { b with
        isEncrypted := (bv.bcbBlocks ++
          ([{ securitySource := localSS, securityTargets := targetsList }] :
            List BcbBlock)).any
            fun c => c.securityTargets.contains b.blockNumber })
          (encryptBlockIfTargeted key tgt pb) ∈
        GetCanonicalBlocksByType (CopyAndLoadBundle
          { bv with
            canonicalBlocks := bv.canonicalBlocks.map (encryptBlockIfTargeted key tgt)
            bcbBlocks := bv.bcbBlocks ++
              [{ securitySource := localSS, securityTargets := targetsList }] })
          payloadBlockType := by
      rw [GetCanonicalBlocksByType, List.mem_filter]
      constructor
      · unfold CopyAndLoadBundle
        simp only []
        exact List.mem_map.mpr ⟨encryptBlockIfTargeted key tgt pb,
          List.mem_map.mpr ⟨pb, hpb.1, rfl⟩, rfl⟩
      · simp only []
        rw [encryptBlockIfTargeted_blockTypeCode, hptype]
        simp
    rw [hnil] at hmem
    simp at hmem
  · intro b hb
    rw [GetCanonicalBlocksByType, List.mem_filter] at hb
    have hmem := hb.1
    unfold CopyAndLoadBundle at hmem
    simp only [] at hmem
    obtain ⟨b1, hb1, hbeq⟩ := List.mem_map.mp hmem
    obtain ⟨b0, hb0, hbeq0⟩ := List.mem_map.mp hb1
    have hbtype : b.blockTypeCode = payloadBlockType := by simpa using hb.2
    have hb0type : b0.blockTypeCode = payloadBlockType := by
      rw [← encryptBlockIfTargeted_blockTypeCode key tgt b0, hbeq0]
      rw [← hbtype, ← hbeq]
    have hb0tgt : tgt.contains b0.blockTypeCode = true := by rw [hb0type]; exact htarget
    rw [← hbeq]
    simp only []
    rw [List.any_append]
    have hc : ([{ securitySource := localSS, securityTargets := targetsList }] :
        List BcbBlock).any (fun c => c.securityTargets.contains b1.blockNumber) = true := by
      simp only [List.any_cons, List.any_nil, Bool.or_false]
      rw [← hbeq0, encryptBlockIfTargeted_blockNumber, blockContains_iff, htl]
      exact List.mem_map.mpr ⟨b0, List.mem_filter.mpr ⟨hb0, hb0tgt⟩, rfl⟩
    rw [hc, Bool.or_true]

/-! ### Concrete sample configurations mirroring the unit test scenarios -/

/-- The all-wildcard pattern `ipn:*.*`. -/
def wildcardPattern : EidPattern := ⟨.anyM, .anyM⟩

/-- The Source-role confidentiality policy of the test's security source
(`securitySource = ipn:10.*`, target block types `[1]`). -/
def samplePolicyTx : BpSecPolicy :=
  { policyId := 0
    securitySourceEidPattern := ⟨.exactM 10, .anyM⟩
    bundleSourceEidPattern := wildcardPattern
    bundleFinalDestEidPattern := wildcardPattern
    role := .source
    securityService := .confidentiality
    securityTargetBlockTypes := [payloadBlockType]
    confidentialityKey := 5
    eventSet := [(.sopCorruptedAtAcceptor, [.removeSecurityOperation]),
      (.sopMisconfiguredAtVerifier, [.failBundleForwarding, .reportReasonCode])] }

/-- The sending node's manager, holding only `samplePolicyTx`. -/
def sampleManagerTx : BpSecPolicyManager :=
  { policyTree := treeInsertAtKey AxisLevel.empty
      ⟨⟨.exactM 10, .anyM⟩, wildcardPattern, wildcardPattern, .source⟩ samplePolicyTx
    nextPolicyId := 1
    defaultEventSet := none }

/-- The Acceptor-role confidentiality policy of the test's receiving node
(`securitySource = ipn:10.1`, same key file as the source). -/
def samplePolicyRx : BpSecPolicy :=
  { policyId := 0
    securitySourceEidPattern := ⟨.exactM 10, .exactM 1⟩
    bundleSourceEidPattern := wildcardPattern
    bundleFinalDestEidPattern := wildcardPattern
    role := .acceptor
    securityService := .confidentiality
    securityTargetBlockTypes := [payloadBlockType]
    confidentialityKey := 5
    eventSet := [(.sopCorruptedAtAcceptor, [.removeSecurityOperation])] }

/-- The receiving node's manager, holding only `samplePolicyRx`. -/
def sampleManagerRx : BpSecPolicyManager :=
  { policyTree := treeInsertAtKey AxisLevel.empty
      ⟨⟨.exactM 10, .exactM 1⟩, wildcardPattern, wildcardPattern, .acceptor⟩ samplePolicyRx
    nextPolicyId := 1
    defaultEventSet := none }

/-- The bad-key acceptor policy: identical to `samplePolicyRx` but
referencing a key distinct from the encrypting key. -/
def samplePolicyRxBad : BpSecPolicy := { samplePolicyRx with confidentialityKey := 7 }

/-- The receiving node's manager with the bad-key acceptor policy loaded. -/
def sampleManagerRxBad : BpSecPolicyManager :=
  { policyTree := treeInsertAtKey AxisLevel.empty
      ⟨⟨.exactM 10, .exactM 1⟩, wildcardPattern, wildcardPattern, .acceptor⟩ samplePolicyRxBad
    nextPolicyId := 1
    defaultEventSet := none }

/-- The test bundle: `src = ipn:1.1`, `dst = ipn:2.1`, one custom extension
block (type 4, number 2) and one payload block (type 1, number 1). -/
def sampleBundle : BundleViewModel :=
  { sourceNodeId := ⟨1, 1⟩
    destinationEid := ⟨2, 1⟩
    canonicalBlocks := [⟨4, 2, [9, 9, 9], false⟩, ⟨payloadBlockType, 1, [1, 2, 3], false⟩]
    bcbBlocks := [] }

/-- The bundle after `process_outgoing` at security source `ipn:10.1`. -/
def sampleEncryptedBundle : BundleViewModel :=
  (sampleManagerTx.FindPolicyAndProcessOutgoingBundle sampleBundle ⟨10, 1⟩).getD sampleBundle

/-- Counterexample to C4 as stated: with the bad-key acceptor of the unit
test — whose `sopCorruptedAtAcceptor` event set contains only
`removeSecurityOperation` — `process_incoming` returns `Drop` although no
`failBundleForwarding` action fired, exactly as the test requires
("bundle must be dropped (payload cannot be decrypted)"). -/
theorem c4_counterexample_drop_without_fail_action :
    (sampleManagerRxBad.ProcessReceivedBundle sampleEncryptedBundle).dropBundle = true ∧
      SecurityAction.failBundleForwarding ∉
        (sampleManagerRxBad.ProcessReceivedBundle sampleEncryptedBundle).firedActions := by
  constructor
  · decide
  · decide

/-- Witness for C1 at the test scenario: the encrypted sample bundle is
accepted at the matching same-key acceptor with the payload bytes
restored. -/
theorem c1_confidentiality_roundtrip_witness :
    (sampleManagerRx.ProcessReceivedBundle sampleEncryptedBundle).dropBundle = false ∧
      GetCanonicalBlocksByType
          (sampleManagerRx.ProcessReceivedBundle sampleEncryptedBundle).bundle
          payloadBlockType =
        (GetCanonicalBlocksByType sampleBundle payloadBlockType).map
          (fun b => { b with isEncrypted := false }) ∧
      (sampleManagerRx.ProcessReceivedBundle sampleEncryptedBundle).bundle.bcbBlocks = [] :=
  c1_confidentiality_roundtrip sampleManagerTx sampleManagerRx sampleBundle
    sampleEncryptedBundle ⟨10, 1⟩ samplePolicyTx samplePolicyRx (by decide) (by decide)
    (by decide) (by decide) (by decide) (by decide) (by decide) (by decide) (by decide)
    (by decide)

/-- The specificity-scenario manager of the unit test: an all-wildcard
Acceptor policy alongside a more specific `ipn:1.1`-security-source
Acceptor policy. -/
def samplePolicyWild : BpSecPolicy :=
  mkDefaultPolicy 0 ⟨wildcardPattern, wildcardPattern, wildcardPattern, .acceptor⟩

/-- The specific policy stored at security source pattern `ipn:1.1`. -/
def samplePolicySpecific : BpSecPolicy :=
  mkDefaultPolicy 1 ⟨⟨.exactM 1, .exactM 1⟩, wildcardPattern, wildcardPattern, .acceptor⟩

/-- A manager holding the wildcard and the specific Acceptor policies. -/
def sampleManagerSpec : BpSecPolicyManager :=
  { policyTree := treeInsertAtKey
      (treeInsertAtKey AxisLevel.empty
        ⟨wildcardPattern, wildcardPattern, wildcardPattern, .acceptor⟩ samplePolicyWild)
      ⟨⟨.exactM 1, .exactM 1⟩, wildcardPattern, wildcardPattern, .acceptor⟩
      samplePolicySpecific
    nextPolicyId := 2
    defaultEventSet := none }

/-- Witness for C2 at the test's specificity scenario: with both the
wildcard and the `Exact` security-source policies matching, `find` returns
the policy reached through the `Exact` subtree. -/
theorem c2_find_most_specific_witness :
    sampleManagerSpec.FindPolicy ⟨1, 1⟩ ⟨2, 1⟩ ⟨3, 1⟩ BPSEC_ROLE.acceptor =
      some samplePolicySpecific :=
  c2_find_most_specific sampleManagerSpec ⟨1, 1⟩ ⟨2, 1⟩ ⟨3, 1⟩
    ⟨⟨.exactM 1, .exactM 1⟩, wildcardPattern, wildcardPattern, .acceptor⟩
    samplePolicySpecific (by decide) (by decide) (by decide)

/-- Witness for C3: on a fresh manager the first wildcard-Acceptor
`create_or_get` reports `isNew = true` and the identical second call
returns the same stored policy with `isNew = false` and no mutation. -/
theorem c3_create_or_get_stable_witness :
    ∃ pol m', BpSecPolicyManager.empty.CreateOrGetNewPolicy "ipn:*.*" "ipn:*.*" "ipn:*.*"
        BPSEC_ROLE.acceptor = (some (pol, true), m') ∧
      m'.CreateOrGetNewPolicy "ipn:*.*" "ipn:*.*" "ipn:*.*" BPSEC_ROLE.acceptor =
        (some (pol, false), m') :=
  (c3_create_or_get_stable BpSecPolicyManager.empty "ipn:*.*" "ipn:*.*" "ipn:*.*"
    BPSEC_ROLE.acceptor wildcardPattern wildcardPattern wildcardPattern (by decide)
    (by decide) (by decide) (by decide)).1 (by decide)

/-- Witness for C5 at the test's bad-key scenario: the acceptor with the
distinct key drops the bundle and every payload block still carries the
ciphertext. -/
theorem c5_wrong_key_drops_witness :
    (sampleManagerRxBad.ProcessReceivedBundle sampleEncryptedBundle).dropBundle = true ∧
      ∀ b ∈ GetCanonicalBlocksByType
          (sampleManagerRxBad.ProcessReceivedBundle sampleEncryptedBundle).bundle
          payloadBlockType,
        ∃ b0 ∈ GetCanonicalBlocksByType sampleBundle payloadBlockType,
          b.blockData = aeadSeal samplePolicyTx.confidentialityKey b0.blockData ∧
            b.blockData ≠ b0.blockData :=
  c5_wrong_key_drops sampleManagerTx sampleManagerRxBad sampleBundle sampleEncryptedBundle
    ⟨10, 1⟩ samplePolicyTx samplePolicyRxBad (by decide) (by decide) (by decide) (by decide)
    (by decide) (by decide) (by decide) (by decide) (by decide)

/-- Witness for C6 at the test's cache scenario: a fresh cache misses,
returns the uncached result, and the repeated query hits. -/
theorem c6_cache_coherence_witness :
    (sampleManagerRx.FindPolicyWithCacheSupport ⟨10, 1⟩ ⟨1, 1⟩ ⟨2, 1⟩ BPSEC_ROLE.acceptor
        PolicySearchCache.fresh).1 =
      sampleManagerRx.FindPolicy ⟨10, 1⟩ ⟨1, 1⟩ ⟨2, 1⟩ BPSEC_ROLE.acceptor ∧
      (sampleManagerRx.FindPolicyWithCacheSupport ⟨10, 1⟩ ⟨1, 1⟩ ⟨2, 1⟩ BPSEC_ROLE.acceptor
        PolicySearchCache.fresh).2.wasCacheHit = false ∧
      (sampleManagerRx.FindPolicyWithCacheSupport ⟨10, 1⟩ ⟨1, 1⟩ ⟨2, 1⟩ BPSEC_ROLE.acceptor
        (sampleManagerRx.FindPolicyWithCacheSupport ⟨10, 1⟩ ⟨1, 1⟩ ⟨2, 1⟩ BPSEC_ROLE.acceptor
          PolicySearchCache.fresh).2).1 =
        sampleManagerRx.FindPolicy ⟨10, 1⟩ ⟨1, 1⟩ ⟨2, 1⟩ BPSEC_ROLE.acceptor ∧
      (sampleManagerRx.FindPolicyWithCacheSupport ⟨10, 1⟩ ⟨1, 1⟩ ⟨2, 1⟩ BPSEC_ROLE.acceptor
        (sampleManagerRx.FindPolicyWithCacheSupport ⟨10, 1⟩ ⟨1, 1⟩ ⟨2, 1⟩ BPSEC_ROLE.acceptor
          PolicySearchCache.fresh).2).2.wasCacheHit = true :=
  c6_cache_coherence sampleManagerRx ⟨10, 1⟩ ⟨1, 1⟩ ⟨2, 1⟩ BPSEC_ROLE.acceptor
    PolicySearchCache.fresh (by decide)

/-- Witness for C7 at the test's bad-syntax scenarios: `**`, a bare
`ipn:`, the empty string, a non-decimal component and the reserved role
are all rejected without mutation. -/
theorem c7_create_or_get_rejects_witness :
    BpSecPolicyManager.empty.CreateOrGetNewPolicy "ipn:**.*" "ipn:*.*" "ipn:*.*"
        BPSEC_ROLE.acceptor = (none, BpSecPolicyManager.empty) ∧
      BpSecPolicyManager.empty.CreateOrGetNewPolicy "ipn:*.*" "ipn:" "ipn:*.*"
        BPSEC_ROLE.acceptor = (none, BpSecPolicyManager.empty) ∧
      BpSecPolicyManager.empty.CreateOrGetNewPolicy "ipn:*.*" "ipn:*.*" ""
        BPSEC_ROLE.acceptor = (none, BpSecPolicyManager.empty) ∧
      BpSecPolicyManager.empty.CreateOrGetNewPolicy "ipn:a.b" "ipn:*.*" "ipn:*.*"
        BPSEC_ROLE.acceptor = (none, BpSecPolicyManager.empty) ∧
      BpSecPolicyManager.empty.CreateOrGetNewPolicy "ipn:*.*" "ipn:*.*" "ipn:*.*"
        BPSEC_ROLE.reservedMaxRoleTypes = (none, BpSecPolicyManager.empty) :=
  ⟨c7_create_or_get_rejects _ _ _ _ _ (Or.inl (by decide)),
    c7_create_or_get_rejects _ _ _ _ _ (Or.inr (Or.inl (by decide))),
    c7_create_or_get_rejects _ _ _ _ _ (Or.inr (Or.inr (Or.inl (by decide)))),
    c7_create_or_get_rejects _ _ _ _ _ (Or.inl (by decide)),
    c7_create_or_get_rejects _ _ _ _ _ (Or.inr (Or.inr (Or.inr rfl)))⟩

/-- Witness for C8: the policy found at the sample acceptor matches the
query and carries the Acceptor role, and the acceptor-only store yields
*absent* for a Verifier query. -/
theorem c8_find_policy_sound_witness :
    (samplePolicyRx.securitySourceEidPattern.matchesEid ⟨10, 1⟩ = true ∧
      samplePolicyRx.bundleSourceEidPattern.matchesEid ⟨1, 1⟩ = true ∧
      samplePolicyRx.bundleFinalDestEidPattern.matchesEid ⟨2, 1⟩ = true ∧
      samplePolicyRx.role = BPSEC_ROLE.acceptor) ∧
      sampleManagerRx.FindPolicy ⟨10, 1⟩ ⟨1, 1⟩ ⟨2, 1⟩ BPSEC_ROLE.verifier = none :=
  ⟨c8_find_policy_sound.1 sampleManagerRx ⟨10, 1⟩ ⟨1, 1⟩ ⟨2, 1⟩ BPSEC_ROLE.acceptor
      samplePolicyRx (by decide) (by decide),
    c8_find_policy_sound.2 sampleManagerRx ⟨10, 1⟩ ⟨1, 1⟩ ⟨2, 1⟩ (by decide)⟩

/-- Witness for C9: the reloaded encrypted sample bundle shows its payload
block present and marked encrypted. -/
theorem c9_outgoing_marks_payload_encrypted_witness :
    GetCanonicalBlocksByType (CopyAndLoadBundle sampleEncryptedBundle) payloadBlockType ≠
        [] ∧
      ∀ b ∈ GetCanonicalBlocksByType (CopyAndLoadBundle sampleEncryptedBundle)
          payloadBlockType,
        b.isEncrypted = true :=
  c9_outgoing_marks_payload_encrypted sampleManagerTx sampleBundle sampleEncryptedBundle
    ⟨10, 1⟩ samplePolicyTx (by decide) (by decide) (by decide) (by decide) (by decide)

/-- Witness for C10: the wildcard Acceptor and wildcard Source policies
created from a fresh manager are distinct objects. -/
theorem c10_distinct_keys_distinct_policies_witness :
    mkDefaultPolicy 0 ⟨wildcardPattern, wildcardPattern, wildcardPattern, .acceptor⟩ ≠
      mkDefaultPolicy 0 ⟨wildcardPattern, wildcardPattern, wildcardPattern, .source⟩ :=
  c10_distinct_keys_distinct_policies BpSecPolicyManager.empty BpSecPolicyManager.empty
    "ipn:*.*" "ipn:*.*" "ipn:*.*" "ipn:*.*" "ipn:*.*" "ipn:*.*"
    BPSEC_ROLE.acceptor BPSEC_ROLE.source
    (mkDefaultPolicy 0 ⟨wildcardPattern, wildcardPattern, wildcardPattern, .acceptor⟩)
    (mkDefaultPolicy 0 ⟨wildcardPattern, wildcardPattern, wildcardPattern, .source⟩)
    true true
    (BpSecPolicyManager.empty.CreateOrGetNewPolicy "ipn:*.*" "ipn:*.*" "ipn:*.*"
      BPSEC_ROLE.acceptor).2
    (BpSecPolicyManager.empty.CreateOrGetNewPolicy "ipn:*.*" "ipn:*.*" "ipn:*.*"
      BPSEC_ROLE.source).2
    (by decide) (by decide) (by decide) (by decide) (by decide)
